import Mathlib

/- ============================================================
   PulseGrid analytics engine — shallow embedding.

   Source files embedded here:
     js/engine.js    (calcStats, calcVolatility, holtwinters, pearson,
                      pearsonMatrix, detectAnomalies)
     js/embed.js     (grangerTest, computeOLSResiduals, solveLinearSystem,
                      fToPValue, betaIncomplete, lnGamma)
     js/pipeline.js  (predictRecession timeline computation)

   Modelling conventions:
   * JS numbers are idealized: finite values are real numbers, and the
     special values NaN / Infinity / -Infinity are explicit constructors,
     so that `isFinite` filters and NaN propagation are faithful.
   * A data point's `value` field may be null: `Option JsNum`.
   * DOM manipulation, logging and observability counters
     (`PG.metrics`, `updateMetricEl`) are side effects with no influence
     on the returned values and are elided, as are presentation-only
     string fields (`interpretation`, insight text, `toFixed` display
     formatting); the numeric quantities those strings are built from
     are retained.
   ============================================================ -/

/-- Model of a JS number: an idealized finite real, or one of the
special values `NaN`, `Infinity`, `-Infinity`. -/
inductive JsNum where
  | num (r : ℝ)
  | nan
  | inf
  | ninf

namespace JsNum

/-- JS `isFinite`. -/
def isFin : JsNum → Bool
  | num _ => true
  | _ => false

/-- JS unary minus. -/
def jneg : JsNum → JsNum
  | num a => num (-a)
  | nan => nan
  | inf => ninf
  | ninf => inf

/-- JS `+` on numbers. -/
def jadd : JsNum → JsNum → JsNum
  | nan, _ => nan
  | _, nan => nan
  | num a, num b => num (a + b)
  | num _, inf => inf
  | num _, ninf => ninf
  | inf, num _ => inf
  | ninf, num _ => ninf
  | inf, inf => inf
  | ninf, ninf => ninf
  | inf, ninf => nan
  | ninf, inf => nan

/-- JS `-` on numbers. -/
def jsub (a b : JsNum) : JsNum := jadd a (jneg b)

/-- JS `*` on numbers (the sign of JS `-0` is not modelled). -/
noncomputable def jmul : JsNum → JsNum → JsNum
  | nan, _ => nan
  | _, nan => nan
  | num a, num b => num (a * b)
  | num a, inf => if a = 0 then nan else if 0 < a then inf else ninf
  | num a, ninf => if a = 0 then nan else if 0 < a then ninf else inf
  | inf, num b => if b = 0 then nan else if 0 < b then inf else ninf
  | ninf, num b => if b = 0 then nan else if 0 < b then ninf else inf
  | inf, inf => inf
  | ninf, ninf => inf
  | inf, ninf => ninf
  | ninf, inf => ninf

/-- JS `/` on numbers (the sign of JS `-0` is not modelled). -/
noncomputable def jdiv : JsNum → JsNum → JsNum
  | nan, _ => nan
  | _, nan => nan
  | num a, num b =>
      if b = 0 then (if a = 0 then nan else if 0 < a then inf else ninf)
      else num (a / b)
  | num _, inf => num 0
  | num _, ninf => num 0
  | inf, num b => if 0 ≤ b then inf else ninf
  | ninf, num b => if 0 ≤ b then ninf else inf
  | inf, inf => nan
  | inf, ninf => nan
  | ninf, inf => nan
  | ninf, ninf => nan

/-- JS `Math.abs`. -/
def jabs : JsNum → JsNum
  | num a => num |a|
  | nan => nan
  | inf => inf
  | ninf => inf

/-- JS `Math.sqrt`. -/
noncomputable def jsqrt : JsNum → JsNum
  | num a => if a < 0 then nan else num (Real.sqrt a)
  | nan => nan
  | inf => inf
  | ninf => nan

/-- JS `Math.round` (round half up). -/
noncomputable def jround : JsNum → JsNum
  | num a => num ((⌊a + 1 / 2⌋ : ℤ) : ℝ)
  | nan => nan
  | inf => inf
  | ninf => ninf

/-- JS `===` against the literal `0`. -/
noncomputable def jeq0 : JsNum → Bool
  | num a => decide (a = 0)
  | _ => false

/-- JS `>=` on numbers (false whenever either side is NaN). -/
noncomputable def jge : JsNum → JsNum → Bool
  | nan, _ => false
  | _, nan => false
  | num a, num b => decide (b ≤ a)
  | num _, inf => false
  | num _, ninf => true
  | inf, num _ => true
  | ninf, num _ => false
  | inf, inf => true
  | ninf, ninf => true
  | inf, ninf => true
  | ninf, inf => false

/-- JS `>` against the literal `0`. -/
noncomputable def jgt0 : JsNum → Bool
  | num a => decide (0 < a)
  | nan => false
  | inf => true
  | ninf => false

end JsNum

open JsNum

/-- A time-series data point `{year, value}`; `value` may be null. -/
structure Pt where
  year : ℤ
  value : Option JsNum

/-- The check `v !== null && isFinite(v)` on a point's value. -/
def validFin : Option JsNum → Bool
  | some (JsNum.num _) => true
  | _ => false

/-- Extract the real payload of a finite value (junk `0` otherwise;
only applied after a `validFin` filter). -/
def toR : Option JsNum → ℝ
  | some (JsNum.num r) => r
  | _ => 0

/-- `series.map(d => d.value).filter(v => v !== null && isFinite(v))`,
with the finite payloads extracted. -/
def jsFinValues (series : List Pt) : List ℝ :=
  ((series.map Pt.value).filter validFin).map toR

/-- `series.filter(d => d.value !== null && isFinite(d.value))`. -/
def finPts (series : List Pt) : List Pt :=
  series.filter (fun d => validFin d.value)

/- ============================================================
   engine.js — PG.calcStats
   ============================================================ -/

/-- Result shape of `PG.calcStats`. -/
structure Stats where
  mean : ℝ
  std : ℝ
  min : ℝ
  max : ℝ
  median : ℝ
  n : ℕ
  variance : ℝ

/-- The all-zero sentinel returned for empty input. -/
def Stats.zero : Stats := ⟨0, 0, 0, 0, 0, 0, 0⟩

/-- `PG.calcStats` (engine.js:13-29). -/
noncomputable def calcStats (series : List Pt) : Stats :=
  let vals := jsFinValues series
  let n := vals.length
  if n = 0 then Stats.zero
  else
    let mean := vals.sum / (n : ℝ)
    let variance := (vals.map (fun b => (b - mean) ^ 2)).sum / ((if 1 < n then (n - 1 : ℕ) else 1 : ℕ) : ℝ)
    let std := Real.sqrt variance
    let sorted := vals.insertionSort (· ≤ ·)
    let median := if n % 2 = 0 then (sorted.getD (n / 2 - 1) 0 + sorted.getD (n / 2) 0) / 2
      else sorted.getD (n / 2) 0
    ⟨mean, std, sorted.getD 0 0, sorted.getD (n - 1) 0, median, n, variance⟩

/- ============================================================
   engine.js — PG.calcVolatility
   ============================================================ -/

/-- The year-over-year growth list built by the loop in
`PG.calcVolatility` (engine.js:46-49): for each consecutive pair with a
nonzero prior value, `(vals[i] - vals[i-1]) / |vals[i-1]| * 100`. -/
noncomputable def growthList (vals : List ℝ) : List ℝ :=
  (vals.zip vals.tail).filterMap
    (fun p => if p.1 = 0 then none else some ((p.2 - p.1) / |p.1| * 100))

/-- `PG.calcVolatility` (engine.js:42-52). -/
noncomputable def calcVolatility (series : List Pt) : Option ℝ :=
  let vals := jsFinValues series
  if vals.length < 2 then none
  else
    let growth := growthList vals
    some (calcStats (growth.enum.map (fun p => ⟨p.1, some (JsNum.num p.2)⟩))).std

/- ============================================================
   engine.js — PG.holtwinters
   ============================================================ -/

/-- The smoothing loop of `PG.holtwinters` (engine.js:85-94): returns
`(smoothed, errors, finalLevel, finalTrend)`. -/
noncomputable def hwLoop (alpha beta : ℝ) : List ℝ → ℝ → ℝ → (List ℝ × List ℝ × ℝ × ℝ)
  | [], level, trend => ([], [], level, trend)
  | obs :: rest, level, trend =>
      let fitted := level + trend
      let newLevel := alpha * obs + (1 - alpha) * (level + trend)
      let newTrend := beta * (newLevel - level) + (1 - beta) * trend
      let r := hwLoop alpha beta rest newLevel newTrend
      (fitted :: r.1, (obs - fitted) :: r.2.1, r.2.2.1, r.2.2.2)

/-- The `accuracy` record of a forecast result.  The source formats
`mape`/`rmse` with `toFixed`; the unformatted numbers are kept.  `mape`
is a `JsNum` because the buggy post-filter indexing can divide by a
zero actual (yielding Infinity/NaN in JS). -/
structure HWAccuracy where
  mape : JsNum
  rmse : ℝ
  n : ℕ

/-- Result shape of `PG.holtwinters` (the `params` object is inlined
as the four config fields). -/
structure HWResult where
  historical : List Pt
  smoothed : List Pt
  forecast : List Pt
  upperCI : List Pt
  lowerCI : List Pt
  alpha : ℝ
  beta : ℝ
  horizon : ℕ
  ci : ℕ
  accuracy : HWAccuracy

/-- `PG.holtwinters` (engine.js:70-133).  Defaults:
`alpha = 0.3`, `beta = 0.1`, `horizon = 5`, `ci = 95`. -/
noncomputable def holtwinters (series : List Pt) (alpha beta : ℝ) (horizon ci : ℕ) :
    Option HWResult :=
  let vals := finPts series
  let n := vals.length
  if n < 3 then none
  else
    let data := vals.map (fun d => toR d.value)
    let level0 := data.getD 0 0
    let trend0 := data.getD 1 0 - data.getD 0 0
    let loop := hwLoop alpha beta data level0 trend0
    let smoothed := loop.1
    let errors := loop.2.1
    let level := loop.2.2.1
    let trend := loop.2.2.2
    let lastYear := ((vals.getLast?).map Pt.year).getD 0
    let forecast := (List.range horizon).map
      (fun h => (⟨lastYear + (h + 1 : ℕ), some (JsNum.num (level + ((h : ℝ) + 1) * trend))⟩ : Pt))
    let s := calcStats (errors.enum.map (fun p => ⟨p.1, some (JsNum.num p.2)⟩))
    let z : ℝ := if ci = 99 then 2.576 else if ci = 90 then 1.645 else 1.960
    let se := s.std * Real.sqrt (1 + 0.1 * horizon)
    let upper := forecast.map (fun f => (⟨f.year, some (JsNum.num (toR f.value + z * se))⟩ : Pt))
    let lower := forecast.map (fun f => (⟨f.year, some (JsNum.num (toR f.value - z * se))⟩ : Pt))
    -- errors.filter((_, i) => data[i] !== 0): the filter callback sees the
    -- original index; the subsequent .map((e, i) => ...) sees the index
    -- within the filtered array.
    let filtered := errors.enum.filterMap
      (fun q => if data.getD q.1 0 = 0 then none else some q.2)
    let terms := filtered.enum.map
      (fun q => JsNum.jmul (JsNum.jabs (JsNum.jdiv (JsNum.num q.2) (JsNum.num (data.getD q.1 0))))
        (JsNum.num 100))
    let mape := JsNum.jdiv (terms.foldl JsNum.jadd (JsNum.num 0)) (JsNum.num n)
    let rmse := Real.sqrt ((errors.map (fun e => e * e)).sum / (n : ℝ))
    some
      { historical := vals
        smoothed := vals.zip smoothed |>.map (fun p => ⟨p.1.year, some (JsNum.num p.2)⟩)
        forecast := forecast
        upperCI := upper
        lowerCI := lower
        alpha := alpha, beta := beta, horizon := horizon, ci := ci
        accuracy := ⟨mape, rmse, n⟩ }

/- ============================================================
   engine.js — PG.pearson
   ============================================================ -/

/-- Last non-null value of `s` at year `yr` (later JS object writes to
`byYear[d.year]` overwrite earlier ones). -/
def lastNonNull (s : List Pt) (yr : ℤ) : Option JsNum :=
  (((s.filter (fun p => decide (p.year = yr) && p.value.isSome)).map Pt.value).getLast?).join

/-- The years with a non-null value in `a`, each once, in ascending
order (JS object iteration order for integer-like keys). -/
def alignYears (a : List Pt) : List ℤ :=
  (((a.filter (fun p => p.value.isSome)).map Pt.year).dedup).insertionSort (· ≤ ·)

/-- The aligned pairs of `PG.pearson` (engine.js:140-146): the first
pass keys `byYear` on `a`'s non-null years (null is the ONLY check —
`isFinite` is not applied here); the second pass attaches `b`'s
non-null value for years already keyed; pairs with `b` undefined are
dropped. -/
def pearsonPairs (a b : List Pt) : List (JsNum × JsNum) :=
  (alignYears a).filterMap (fun yr =>
    match lastNonNull a yr, lastNonNull b yr with
    | some x, some y => some (x, y)
    | _, _ => none)

/-- `PG.pearson` (engine.js:138-166).  Arithmetic is over `JsNum`
because non-finite inputs are not filtered out. -/
noncomputable def pearson (a b : List Pt) : Option JsNum :=
  let pairs := pearsonPairs a b
  if pairs.length < 3 then none
  else
    let xs := pairs.map Prod.fst
    let ys := pairs.map Prod.snd
    let n := pairs.length
    let mx := JsNum.jdiv (xs.foldl JsNum.jadd (JsNum.num 0)) (JsNum.num n)
    let my := JsNum.jdiv (ys.foldl JsNum.jadd (JsNum.num 0)) (JsNum.num n)
    let acc := (xs.zip ys).foldl
      (fun acc p =>
        let ex := JsNum.jsub p.1 mx
        let ey := JsNum.jsub p.2 my
        (JsNum.jadd acc.1 (JsNum.jmul ex ey),
         JsNum.jadd acc.2.1 (JsNum.jmul ex ex),
         JsNum.jadd acc.2.2 (JsNum.jmul ey ey)))
      (JsNum.num 0, JsNum.num 0, JsNum.num 0)
    let denom := JsNum.jsqrt (JsNum.jmul acc.2.1 acc.2.2)
    if JsNum.jeq0 denom then some (JsNum.num 0)
    else some (JsNum.jdiv (JsNum.jround (JsNum.jmul (JsNum.jdiv acc.1 denom) (JsNum.num 1000)))
      (JsNum.num 1000))

/- ============================================================
   engine.js — PG.pearsonMatrix
   ============================================================ -/

/-- A dataset handed to `PG.pearsonMatrix`. -/
structure DataSet where
  label : String
  data : List Pt

/-- One matrix entry as left by the fill loop (engine.js:173-180):
diagonal 1.0, and for `i ≠ j` the single `PG.pearson` call made for
the unordered pair `{i, j}` (computed at `i < j`, written to both
cells). -/
noncomputable def pmEntry (ds : List DataSet) (i j : ℕ) : Option JsNum :=
  if i = j then some (JsNum.num 1)
  else if i < j then pearson ((ds.getD i ⟨"", []⟩).data) ((ds.getD j ⟨"", []⟩).data)
  else pearson ((ds.getD j ⟨"", []⟩).data) ((ds.getD i ⟨"", []⟩).data)

/-- The full correlation matrix as a list of rows. -/
noncomputable def pmMatrix (ds : List DataSet) : List (List (Option JsNum)) :=
  (List.range ds.length).map (fun i => (List.range ds.length).map (fun j => pmEntry ds i j))

/-- The insight entries pushed by the double loop of
`PG.pearsonMatrix` (engine.js:183-201): for each pair `i < j` with a
non-null `r` whose `|r| ≥ 0.45`, the `r` value is recorded (the
insight text, color and strength bucket are presentation strings built
from `r` and are elided). -/
noncomputable def pmPushed (ds : List DataSet) : List JsNum :=
  (List.range ds.length).flatMap (fun i =>
    (List.range ds.length).filterMap (fun j =>
      if i < j then
        match pmEntry ds i j with
        | none => none
        | some r => if JsNum.jge (JsNum.jabs r) (JsNum.num 0.45) then some r else none
      else none))

/-- The insight list (engine.js:202-204): the pushed entries sorted by
descending `|r|` (JS stable sort with comparator `|b.r| - |a.r|`) and
truncated to the top 5. -/
noncomputable def pmInsights (ds : List DataSet) : List JsNum :=
  ((pmPushed ds).insertionSort (fun x y => JsNum.jge (JsNum.jabs x) (JsNum.jabs y))).take 5

/-- Result shape of `PG.pearsonMatrix` (engine.js:168-205). -/
structure PMResult where
  labels : List String
  matrix : List (List (Option JsNum))
  insights : List JsNum

/-- `PG.pearsonMatrix`. -/
noncomputable def pearsonMatrix (ds : List DataSet) : PMResult :=
  ⟨ds.map DataSet.label, pmMatrix ds, pmInsights ds⟩

/- ============================================================
   engine.js — PG.detectAnomalies
   ============================================================ -/

/-- The `method` option. -/
inductive AMethod where
  | zscore
  | iqr
  | both
deriving DecidableEq

/-- An anomaly record `{...d, z, isZ, isIQR}` (the `z.toFixed(2)`
display formatting is elided; the raw z-score is kept). -/
structure Anomaly where
  point : Pt
  z : ℝ
  isZ : Bool
  isIQR : Bool

/-- The `stats` summary attached when at least 4 valid points exist. -/
structure AnomalyStats where
  mean : ℝ
  std : ℝ
  q1 : ℝ
  q3 : ℝ
  iqr : ℝ
  iqrLow : ℝ
  iqrHigh : ℝ

/-- Result of `PG.detectAnomalies`; `stats` is absent (`none`) in the
short-series early return. -/
structure AnomalyResult where
  anomalies : List Anomaly
  normal : List Pt
  stats : Option AnomalyStats

/-- The z-score of a value (engine.js:230). -/
noncomputable def anomZ (mean std v : ℝ) : ℝ :=
  if 0 < std then |(v - mean) / std| else 0

/-- The flag decision per point (engine.js:231-237). -/
noncomputable def anomFlag (method : AMethod) (threshold mean std iqrLow iqrHigh v : ℝ) : Bool :=
  let isZ := decide (threshold ≤ anomZ mean std v)
  let isIQR := decide (v < iqrLow) || decide (iqrHigh < v)
  match method with
  | AMethod.zscore => isZ
  | AMethod.iqr => isIQR
  | AMethod.both => isZ || isIQR

/-- `PG.detectAnomalies` (engine.js:210-247).  Defaults:
`method = both`, `threshold = 2.5`.  `Math.floor(n * 0.25)` and
`Math.floor(n * 0.75)` are exactly `n / 4` and `3 * n / 4` in natural
division. -/
noncomputable def detectAnomalies (series : List Pt) (method : AMethod) (threshold : ℝ) :
    AnomalyResult :=
  let vals := finPts series
  let n := vals.length
  if n < 4 then ⟨[], vals, none⟩
  else
    let numbers := vals.map (fun d => toR d.value)
    let st := calcStats vals
    let sorted := numbers.insertionSort (· ≤ ·)
    let q1 := sorted.getD (n / 4) 0
    let q3 := sorted.getD (3 * n / 4) 0
    let iqr := q3 - q1
    let iqrLow := q1 - 1.5 * iqr
    let iqrHigh := q3 + 1.5 * iqr
    let anomalies := vals.filterMap (fun d =>
      if anomFlag method threshold st.mean st.std iqrLow iqrHigh (toR d.value) then
        some (⟨d, anomZ st.mean st.std (toR d.value),
          decide (threshold ≤ anomZ st.mean st.std (toR d.value)),
          decide (toR d.value < iqrLow) || decide (iqrHigh < toR d.value)⟩ : Anomaly)
      else none)
    let normal := vals.filter (fun d =>
      !anomFlag method threshold st.mean st.std iqrLow iqrHigh (toR d.value))
    ⟨anomalies, normal, some ⟨st.mean, st.std, q1, q3, iqr, iqrLow, iqrHigh⟩⟩

/- ============================================================
   embed.js — solveLinearSystem (Gaussian elimination with
   partial pivoting)
   ============================================================ -/

/-- `M[i][j]` with out-of-range access yielding junk `0` (all real
accesses in the source are in range). -/
def mGet (M : List (List ℝ)) (i j : ℕ) : ℝ := (M.getD i []).getD j 0

/-- Swap two rows of the augmented matrix. -/
def rowSwap (M : List (List ℝ)) (i j : ℕ) : List (List ℝ) :=
  let ri := M.getD i []
  let rj := M.getD j []
  (M.set i rj).set j ri

/-- Partial-pivot search (embed.js:313-316): starting from `maxRow =
col`, scan rows `col+1 .. n-1` and move to any row with a strictly
larger `|M[row][col]|`. -/
noncomputable def pivotSearch (M : List (List ℝ)) (col n : ℕ) : ℕ :=
  ((List.range n).drop (col + 1)).foldl
    (fun mr row => if |mGet M mr col| < |mGet M row col| then row else mr) col

/-- Eliminate below the pivot (embed.js:322-325): for each row below
`col`, subtract `factor` times the pivot row from entries `j ≥ col`
(entries left of `col` are not touched, as in the source). -/
noncomputable def elimBelow (M : List (List ℝ)) (col : ℕ) : List (List ℝ) :=
  let pivRow := M.getD col []
  let piv := pivRow.getD col 0
  M.enum.map (fun pr =>
    if pr.1 ≤ col then pr.2
    else
      let factor := pr.2.getD col 0 / piv
      pr.2.enum.map (fun qc => if col ≤ qc.1 then qc.2 - factor * pivRow.getD qc.1 0 else qc.2))

/-- The forward-elimination loop of `solveLinearSystem`
(embed.js:311-327), one recursive step per column of the worklist
(`for (col = 0; col < n; col++)` is run with worklist
`List.range n`); returns `none` as soon as a post-pivoting pivot
magnitude falls below `1e-12`. -/
noncomputable def gaussForward (n : ℕ) : List ℕ → List (List ℝ) → Option (List (List ℝ))
  | [], M => some M
  | col :: rest, M =>
      let M1 := rowSwap M col (pivotSearch M col n)
      if |mGet M1 col col| < 1e-12 then none
      else gaussForward n rest (elimBelow M1 col)

/-- The back-substitution loop (embed.js:329-335)
(`for (i = n-1; i >= 0; i--)` is run with worklist
`(List.range n).reverse`); the accumulator holds `x[i+1..n-1]`. -/
noncomputable def backSub (M : List (List ℝ)) (n : ℕ) : List ℕ → List ℝ → List ℝ
  | [], xs => xs
  | i :: rest, xs =>
      let row := M.getD i []
      let v := (row.getD n 0 -
        (((List.range n).drop (i + 1)).map (fun j => row.getD j 0 * xs.getD (j - (i + 1)) 0)).sum)
        / row.getD i 0
      backSub M n rest (v :: xs)

/-- `solveLinearSystem` (embed.js:307-336). -/
noncomputable def solveLinearSystem (A : List (List ℝ)) (b : List ℝ) : Option (List ℝ) :=
  let n := A.length
  let M := (A.zip b).map (fun p => p.1 ++ [p.2])
  match gaussForward n (List.range n) M with
  | none => none
  | some M1 => some (backSub M1 n ((List.range n).reverse) [])

/- ============================================================
   embed.js — computeOLSResiduals
   ============================================================ -/

/-- `computeOLSResiduals` (embed.js:268-304): OLS via the normal
equations; the source fills the symmetric Gram matrix from its lower
triangle, which equals the direct formula used here. -/
noncomputable def computeOLSResiduals (X : List (List ℝ)) (y : List ℝ) : Option ℝ :=
  let n := X.length
  let k := (X.getD 0 []).length
  if n ≤ k then none
  else
    let XtX := (List.range k).map (fun i => (List.range k).map (fun j =>
      ((List.range n).map (fun t => mGet X t i * mGet X t j)).sum))
    let Xty := (List.range k).map (fun i =>
      ((List.range n).map (fun t => mGet X t i * y.getD t 0)).sum)
    match solveLinearSystem XtX Xty with
    | none => none
    | some beta =>
        some (((List.range n).map (fun t =>
          let residual := y.getD t 0 - ((List.range k).map (fun j => mGet X t j * beta.getD j 0)).sum
          residual * residual)).sum)

/- ============================================================
   embed.js — F-distribution p-value approximation
   ============================================================ -/

/-- Lanczos coefficients of `lnGamma` (embed.js:382-383). -/
noncomputable def lnGammaCoef : List ℝ :=
  [76.18009172947146, -86.50532032941677, 24.01409824083091,
   -1.231739572450155, 1.208650973866179e-3, -5.395239384953e-6]

/-- `lnGamma` (embed.js:380-390). -/
noncomputable def lnGamma (z : ℝ) : ℝ :=
  let tmp := z + 5.5 - (z + 0.5) * Real.log (z + 5.5)
  let ser := 1.000000000190015 + ((lnGammaCoef.enum).map (fun p => p.2 / (z + (p.1 : ℝ) + 1))).sum
  let out := -tmp + Real.log (2.5066282746310005 * ser / z)
  out

/-- The `1e-30` underflow clamp of Lentz's method (embed.js:356-370). -/
noncomputable def biClamp (v : ℝ) : ℝ := if |v| < 1e-30 then 1e-30 else v

/-- The Lentz continued-fraction loop of `betaIncomplete`
(embed.js:360-375), with an even and an odd step per iteration; `d` is
carried already inverted, and the loop breaks when the odd-step
multiplicative correction is within `1e-8` of 1. -/
noncomputable def biLoop (a b x : ℝ) : ℕ → ℕ → ℝ → ℝ → ℝ → ℝ
  | _, 0, _, _, result => result
  | m, fuel + 1, c, d, result =>
      let numE := (m : ℝ) * (b - m) * x / ((a + 2 * m - 1) * (a + 2 * m))
      let d1 := 1 / biClamp (1 + numE * d)
      let c1 := biClamp (1 + numE / c)
      let res1 := result * (d1 * c1)
      let numO := -((a + m) * (a + b + m)) * x / ((a + 2 * m) * (a + 2 * m + 1))
      let d2 := 1 / biClamp (1 + numO * d1)
      let c2 := biClamp (1 + numO / c1)
      let delta := d2 * c2
      let res2 := res1 * delta
      if |delta - 1| < 1e-8 then res2
      else biLoop a b x (m + 1) fuel c2 d2 res2

/-- `betaIncomplete` (embed.js:346-378). -/
noncomputable def betaIncomplete (a b x : ℝ) : ℝ :=
  if x < 0 ∨ 1 < x then (if x < 0 then 0 else 1)
  else if x = 0 ∨ x = 1 then x
  else
    let lbeta := lnGamma a + lnGamma b - lnGamma (a + b)
    let front := Real.exp (Real.log x * a + Real.log (1 - x) * b - lbeta) / a
    let d0 := 1 / biClamp (1 - (a + b) * x / (a + 1))
    1 - front * biLoop a b x 1 200 1 d0 d0

/-- `fToPValue` (embed.js:339-344). -/
noncomputable def fToPValue (f d1 d2 : ℝ) : ℝ :=
  if f ≤ 0 ∨ d1 ≤ 0 ∨ d2 ≤ 0 then 1
  else betaIncomplete (d2 / 2) (d1 / 2) (d2 / (d2 + d1 * f))

/- ============================================================
   embed.js — PG.grangerTest
   ============================================================ -/

/-- Last value of `s` at year `yr` that passes the
`!== null && isFinite` filter (later JS object writes win). -/
def lastFin (s : List Pt) (yr : ℤ) : Option ℝ :=
  ((s.filter (fun p => decide (p.year = yr) && validFin p.value)).map (fun p => toR p.value)).getLast?

/-- The years keyed by the first alignment pass of `PG.grangerTest`
(years holding a finite `x` value), each once, in ascending order
(the source sorts `Object.entries` numerically). -/
def gYears (xs : List Pt) : List ℤ :=
  (((xs.filter (fun p => validFin p.value)).map Pt.year).dedup).insertionSort (· ≤ ·)

/-- The aligned `{year, x, y}` list of `PG.grangerTest`
(embed.js:188-197): years with a finite value in both series, sorted
ascending. -/
def gAligned (xs ys : List Pt) : List (ℤ × ℝ × ℝ) :=
  (gYears xs).filterMap (fun yr =>
    match lastFin xs yr, lastFin ys yr with
    | some x, some y => some (yr, x, y)
    | _, _ => none)

/-- Round to `k`-ths, JS `Math.round(v * k) / k`. -/
noncomputable def roundTo (k v : ℝ) : ℝ := ((⌊v * k + 1 / 2⌋ : ℤ) : ℝ) / k

/-- One per-lag result pushed by `PG.grangerTest` (embed.js:240-248). -/
structure LagResult where
  lag : ℕ
  fStatistic : ℝ
  pValue : ℝ
  significant : Bool
  rssRestricted : ℝ
  rssUnrestricted : ℝ
  observations : ℕ

/-- The dependent-variable vector `yVals` of lag `lag`
(embed.js:209). -/
def yOf (al : List (ℤ × ℝ × ℝ)) (lag : ℕ) : List ℝ :=
  (al.drop lag).map (fun d => d.2.2)

/-- The restricted design matrix of lag `lag` (embed.js:212-217): one
row per `t = lag .. n-1`, `[1, y(t-1), ..., y(t-lag)]`. -/
def XrOf (al : List (ℤ × ℝ × ℝ)) (n lag : ℕ) : List (List ℝ) :=
  ((List.range n).drop lag).map (fun t =>
    1 :: (List.range' 1 lag).map (fun l => (al.getD (t - l) (0, 0, 0)).2.2))

/-- The unrestricted design matrix of lag `lag` (embed.js:220-226):
rows `[1, y(t-1), ..., y(t-lag), x(t-1), ..., x(t-lag)]`. -/
def XuOf (al : List (ℤ × ℝ × ℝ)) (n lag : ℕ) : List (List ℝ) :=
  ((List.range n).drop lag).map (fun t =>
    1 :: ((List.range' 1 lag).map (fun l => (al.getD (t - l) (0, 0, 0)).2.2) ++
      (List.range' 1 lag).map (fun l => (al.getD (t - l) (0, 0, 0)).2.1)))

/-- The RSS of the restricted model at a lag. -/
noncomputable def rssROf (al : List (ℤ × ℝ × ℝ)) (n lag : ℕ) : Option ℝ :=
  computeOLSResiduals (XrOf al n lag) (yOf al lag)

/-- The RSS of the unrestricted model at a lag. -/
noncomputable def rssUOf (al : List (ℤ × ℝ × ℝ)) (n lag : ℕ) : Option ℝ :=
  computeOLSResiduals (XuOf al n lag) (yOf al lag)

/-- The denominator degrees of freedom `effectiveN - 2*lag - 1`
(embed.js:234). -/
def dfDenOf (n lag : ℕ) : ℤ := ((n - lag : ℕ) : ℤ) - 2 * lag - 1

/-- The F statistic of a lag (embed.js:237), given the two RSS
values. -/
noncomputable def fStatOf (rssR rssU : ℝ) (n lag : ℕ) : ℝ :=
  ((rssR - rssU) / (lag : ℝ)) / (rssU / ((dfDenOf n lag : ℤ) : ℝ))

/-- The (unrounded) p-value of a lag (embed.js:238). -/
noncomputable def pValOf (rssR rssU : ℝ) (n lag : ℕ) : ℝ :=
  fToPValue (fStatOf rssR rssU n lag) (lag : ℝ) ((dfDenOf n lag : ℤ) : ℝ)

/-- One iteration of the lag loop of `PG.grangerTest`
(embed.js:204-249); `none` means the lag was skipped (`continue`). -/
noncomputable def lagCompute (al : List (ℤ × ℝ × ℝ)) (n lag : ℕ) : Option LagResult :=
  let effectiveN := n - lag
  if effectiveN < lag * 2 + 2 then none
  else
    match rssROf al n lag, rssUOf al n lag with
    | some rssR, some rssU =>
        if rssU ≤ 0 then none
        else if dfDenOf n lag ≤ 0 then none
        else
          some ⟨lag, roundTo 1000 (fStatOf rssR rssU n lag),
            roundTo 10000 (pValOf rssR rssU n lag),
            decide (pValOf rssR rssU n lag < 0.05), rssR, rssU, effectiveN⟩
    | _, _ => none

/-- Result shape of `PG.grangerTest` (the `interpretation` display
string is elided). -/
structure GrangerResult where
  results : List LagResult
  bestLag : ℕ
  bestF : ℝ
  bestP : ℝ
  causal : Bool

/-- `PG.grangerTest` (embed.js:186-265).  Default `maxLag = 3`.  The
best lag is chosen by `reduce((a, b) => a.pValue < b.pValue ? a : b)`,
which keeps the accumulator only when its stored (rounded) p-value is
strictly smaller. -/
noncomputable def grangerTest (xs ys : List Pt) (maxLag : ℕ) : Option GrangerResult :=
  let al := gAligned xs ys
  if al.length < maxLag * 3 + 2 then none
  else
    let n := al.length
    let results := (List.range' 1 maxLag).filterMap (lagCompute al n)
    match results with
    | [] => none
    | r :: rest =>
        let best := rest.foldl (fun a b => if a.pValue < b.pValue then a else b) r
        some ⟨results, best.lag, best.fStatistic, best.pValue, best.significant⟩

/- ============================================================
   pipeline.js — PG.predictRecession (timeline computation)
   ============================================================ -/

/-- A leading indicator of the recession predictor: its weight and
signal function (pipeline.js:388-443).  The `code`, `name`, `invert`
and `threshold` fields are display/selection metadata with no role in
the timeline computation and are elided. -/
structure RIndicator where
  weight : ℝ
  signal : ℝ → Option ℝ → ℝ

/-- The six fixed `RECESSION_INDICATORS` in source order: GDP growth,
unemployment, inflation, exports, FDI inflows, government debt. -/
noncomputable def recessionIndicators : List RIndicator :=
  [ ⟨0.30, fun v _ => if v < 0 then 1 else if v < 1 then 0.5 else 0⟩,
    ⟨0.20, fun v prev =>
      match prev with
      | none => 0
      | some p =>
          let delta := v - p
          if 2 < delta then 1 else if 0.5 < delta then 0.6 else if 0 < delta then 0.3 else 0⟩,
    ⟨0.15, fun v _ =>
      if 15 < v then 1 else if 10 < v then 0.7 else if 5 < v then 0.3
      else if v < 0 then 0.5 else 0⟩,
    ⟨0.15, fun v prev =>
      match prev with
      | none => 0
      | some p =>
          let delta := v - p
          if delta < -5 then 0.8 else if delta < -2 then 0.4 else 0⟩,
    ⟨0.10, fun v prev =>
      match prev with
      | none => 0
      | some p =>
          let delta := v - p
          if delta < -2 then 0.8 else if delta < -0.5 then 0.4 else 0⟩,
    ⟨0.10, fun v _ =>
      if 100 < v then 0.8 else if 80 < v then 0.5 else if 60 < v then 0.2 else 0⟩ ]

/-- The prior-value lookup of `PG.predictRecession`
(pipeline.js:500: `prevYearData ? (prevYearData[ind.code] || null) :
null`): null when no previous year or the indicator is absent there,
and ALSO when the prior value is exactly `0` (JS falsy). -/
noncomputable def codePrevRule (prev : Option (List (Option ℝ))) (i : ℕ) : Option ℝ :=
  match prev with
  | none => none
  | some pyd =>
      match pyd.getD i none with
      | none => none
      | some pv => if pv = 0 then none else some pv

/-- One timeline entry `{year, probability, riskLevel}`; `probability`
is the stored `Math.round(probability * 100)` percentage and the
per-signal breakdown list (display data) is elided. -/
structure TimelineEntry where
  year : ℤ
  probability : ℤ
  riskLevel : String

/-- One iteration of the `years.forEach` body of `PG.predictRecession`
(pipeline.js:491-527).  `prevYd` is the previous iterated year's data.
The source reads the prior value as `prevYearData[ind.code] || null`,
so a prior value of exactly `0` (falsy) is replaced by null. -/
noncomputable def yearStep (prevYd : Option (List (Option ℝ))) (year : ℤ)
    (yd : List (Option ℝ)) : TimelineEntry :=
  let acc := (recessionIndicators.enum).foldl
    (fun acc p =>
      match yd.getD p.1 none with
      | none => acc
      | some val =>
          let sig := p.2.signal val (codePrevRule prevYd p.1)
          (acc.1 + sig * p.2.weight, acc.2 + p.2.weight))
    ((0 : ℝ), (0 : ℝ))
  let probability := if 0 < acc.2 then min 1 (acc.1 / acc.2) else 0
  ⟨year, ⌊probability * 100 + 1 / 2⌋,
    if 0.6 ≤ probability then "high"
    else if 0.35 ≤ probability then "elevated"
    else if 0.15 ≤ probability then "moderate" else "low"⟩

/-- The year-by-year composite timeline of `PG.predictRecession`,
starting from the year-sorted union of fetched indicator data (each
year's record holds the finite values present for the six indicators,
in indicator order). -/
noncomputable def recessionTimeline :
    Option (List (Option ℝ)) → List (ℤ × List (Option ℝ)) → List TimelineEntry
  | _, [] => []
  | prev, (yr, yd) :: rest => yearStep prev yr yd :: recessionTimeline (some yd) rest

/- ============================================================
   Spec-side comparison definitions
   ============================================================ -/

/-- The pivot value examined at column `col` (after the partial-pivot
swap). -/
noncomputable def pivotVal (n col : ℕ) (M : List (List ℝ)) : ℝ :=
  mGet (rowSwap M col (pivotSearch M col n)) col col

/-- One full (unconditional) elimination step at column `col`: the
partial-pivot swap followed by elimination below the pivot. -/
noncomputable def elimOnce (n col : ℕ) (M : List (List ℝ)) : List (List ℝ) :=
  elimBelow (rowSwap M col (pivotSearch M col n)) col

/-- The pivot values examined along the (unconditional) elimination
trace, one per worklist column; `gaussForward` follows this same trace
until the first pivot whose magnitude is below `1e-12`. -/
noncomputable def pivotsOf (n : ℕ) : List ℕ → List (List ℝ) → List ℝ
  | [], _ => []
  | col :: rest, M => pivotVal n col M :: pivotsOf n rest (elimOnce n col M)

/-- Sample standard deviation stated directly (used to express what
`calcVolatility` returns): 0 for an empty list, otherwise the square
root of `Σ(x - mean)² / (n-1)` (denominator 1 when `n = 1`). -/
noncomputable def specStd (l : List ℝ) : ℝ :=
  if l = [] then 0
  else Real.sqrt ((l.map (fun x => (x - l.sum / (l.length : ℝ)) ^ 2)).sum /
    ((if 1 < l.length then (l.length - 1 : ℕ) else 1 : ℕ) : ℝ))

/-- MAPE as the spec states it (§4.3 step 5): the mean of
`|residual/actual|·100` over exactly the fitted-vs-actual pairs whose
actual value is nonzero. -/
noncomputable def mapeSpec (data errors : List ℝ) : ℝ :=
  let terms := (data.zip errors).filterMap
    (fun p => if p.1 = 0 then none else some (|p.2 / p.1| * 100))
  terms.sum / (terms.length : ℝ)

/-- The prior-value rule as claim C7 states it: the prior year's value
is passed through verbatim, null only when unavailable. -/
def claimPrevRule (prev : Option (List (Option ℝ))) (i : ℕ) : Option ℝ :=
  prev.bind (fun pyd => pyd.getD i none)

/-- One composite-scorer year as the spec's formula states it,
parameterized by the prior-value rule: the present indicators are
collected, `probability = min(1, Σ(signal·weight) / Σ(weight))`
(0 when no indicator is present), and the risk level is bucketed by
the 0.15 / 0.35 / 0.6 thresholds. -/
noncomputable def specStep (rule : Option (List (Option ℝ)) → ℕ → Option ℝ)
    (prev : Option (List (Option ℝ))) (year : ℤ) (yd : List (Option ℝ)) : TimelineEntry :=
  let present := (recessionIndicators.enum).filterMap
    (fun p => (yd.getD p.1 none).map (fun v => (p.1, p.2, v)))
  let wsum := (present.map (fun q => q.2.1.weight)).sum
  let ssum := (present.map (fun q => q.2.1.signal q.2.2 (rule prev q.1) * q.2.1.weight)).sum
  let probability := if 0 < wsum then min 1 (ssum / wsum) else 0
  ⟨year, ⌊probability * 100 + 1 / 2⌋,
    if probability < 0.15 then "low"
    else if probability < 0.35 then "moderate"
    else if probability < 0.6 then "elevated" else "high"⟩

/-- The spec-formula timeline, parameterized by the prior-value rule. -/
noncomputable def specTimeline (rule : Option (List (Option ℝ)) → ℕ → Option ℝ) :
    Option (List (Option ℝ)) → List (ℤ × List (Option ℝ)) → List TimelineEntry
  | _, [] => []
  | prev, (yr, yd) :: rest => specStep rule prev yr yd :: specTimeline rule (some yd) rest

/- ============================================================
   Theorems
   ============================================================ -/

/-- `gaussForward` returns `none` exactly when some pivot along the
elimination trace has magnitude below `1e-12`. -/
theorem gaussForward_eq_none_iff (n : ℕ) (cols : List ℕ) (M : List (List ℝ)) :
    gaussForward n cols M = none ↔ ∃ p ∈ pivotsOf n cols M, |p| < 1e-12 := by
  induction cols generalizing M with
  | nil => simp [gaussForward, pivotsOf]
  | cons col rest ih =>
      by_cases h : |pivotVal n col M| < 1e-12
      · simp only [gaussForward, pivotsOf]
        rw [if_pos (by simpa [pivotVal, mGet] using h)]
        exact iff_of_true rfl ⟨pivotVal n col M, List.mem_cons_self _ _, h⟩
      · simp only [gaussForward, pivotsOf]
        rw [if_neg (by simpa [pivotVal, mGet] using h)]
        rw [ih]
        constructor
        · rintro ⟨p, hp, hlt⟩
          exact ⟨p, List.mem_cons_of_mem _ (by simpa [elimOnce] using hp), hlt⟩
        · rintro ⟨p, hp, hlt⟩
          rcases List.mem_cons.mp hp with h1 | h2
          · exact absurd (h1 ▸ hlt) h
          · exact ⟨p, by simpa [elimOnce] using h2, hlt⟩

/-- C2: the Gaussian-elimination kernel with partial pivoting solves
`[[2,1],[1,3]]·x = [5,10]` exactly, returning `x = [1,3]`; for the
matrix `[[1,2],[2,4]]` it reports singular (`none`) for every
right-hand side; and in general it reports singular exactly when some
pivot magnitude along the elimination trace falls below `1e-12`. -/
theorem solveLinearSystem_spec :
    solveLinearSystem [[2, 1], [1, 3]] [5, 10] = some [1, 3] ∧
    (∀ b1 b2 : ℝ, solveLinearSystem [[1, 2], [2, 4]] [b1, b2] = none) ∧
    (∀ (A : List (List ℝ)) (b : List ℝ), solveLinearSystem A b = none ↔
      ∃ p ∈ pivotsOf A.length (List.range A.length) ((A.zip b).map (fun q => q.1 ++ [q.2])),
        |p| < 1e-12) := by
  refine ⟨?_, ?_, ?_⟩
  · norm_num [solveLinearSystem, gaussForward, backSub, pivotSearch, rowSwap, elimBelow,
      mGet, List.getD, List.range_succ, List.enum_cons, List.enumFrom_cons, List.enum_nil,
      List.enumFrom_nil, abs_div, abs_of_nonneg, abs_of_pos]
  · intro b1 b2
    norm_num [solveLinearSystem, gaussForward, backSub, pivotSearch, rowSwap, elimBelow,
      mGet, List.getD, List.range_succ, List.enum_cons, List.enumFrom_cons, List.enum_nil,
      List.enumFrom_nil, abs_div, abs_of_nonneg, abs_of_pos]
  · intro A b
    rw [← gaussForward_eq_none_iff]
    unfold solveLinearSystem
    cases h : gaussForward A.length (List.range A.length)
        ((A.zip b).map (fun q => q.1 ++ [q.2])) with
    | none => simp [h]
    | some M1 => simp [h]

/-- Wrapping a real list as points (`growth.map((v,i) => ({year:i,
value:v}))`) and re-filtering recovers the list. -/
theorem jsFinValues_wrap (l : List ℝ) :
    jsFinValues (l.enum.map (fun p => (⟨(p.1 : ℤ), some (JsNum.num p.2)⟩ : Pt))) = l := by
  unfold jsFinValues
  rw [List.map_map, List.filter_map, List.map_map]
  have h1 : (validFin ∘ Pt.value ∘ fun p : ℕ × ℝ => (⟨(p.1 : ℤ), some (JsNum.num p.2)⟩ : Pt))
      = fun _ => true := by funext p; rfl
  have h2 : (toR ∘ Pt.value ∘ fun p : ℕ × ℝ => (⟨(p.1 : ℤ), some (JsNum.num p.2)⟩ : Pt))
      = Prod.snd := by funext p; rfl
  rw [h1, h2, List.filter_true]
  exact List.enum_map_snd l

/-- The `std` field of `calcStats` over a wrapped real list is the
directly-stated sample standard deviation. -/
theorem calcStats_wrap_std (l : List ℝ) :
    (calcStats (l.enum.map (fun p => (⟨(p.1 : ℤ), some (JsNum.num p.2)⟩ : Pt)))).std
      = specStd l := by
  unfold calcStats specStd
  rw [jsFinValues_wrap]
  rcases eq_or_ne l [] with h | h
  · simp [h, Stats.zero, Real.sqrt_zero]
  · simp [h, List.length_eq_zero, Stats.zero]

/-- C6 counterexample: the series `[(2000, 0), (2001, 5)]` has zero
valid growth observations (the only step has prior value 0), yet
`calcVolatility` returns `0`, not null — the guard tests the number of
valid values, not the number of growth observations. -/
theorem calcVolatility_ce :
    growthList (jsFinValues [(⟨2000, some (JsNum.num 0)⟩ : Pt), ⟨2001, some (JsNum.num 5)⟩]) = []
    ∧ calcVolatility [(⟨2000, some (JsNum.num 0)⟩ : Pt), ⟨2001, some (JsNum.num 5)⟩] = some 0 := by
  have hv : jsFinValues [(⟨2000, some (JsNum.num 0)⟩ : Pt), ⟨2001, some (JsNum.num 5)⟩]
      = [0, 5] := by
    simp [jsFinValues, validFin, toR]
  have hg : growthList ([0, 5] : List ℝ) = [] := by
    norm_num [growthList, List.zip]
  constructor
  · rw [hv, hg]
  · unfold calcVolatility
    rw [hv]
    norm_num [hg, calcStats, jsFinValues, Stats.zero]

/-- C6 (amended): `calcVolatility` returns null exactly when fewer
than 2 valid (non-null, finite) values exist; otherwise it returns the
standard deviation of the year-over-year growth observations (steps
with prior value exactly 0 skipped), which is `0` — not null — when
fewer than 2 growth observations remain. -/
theorem calcVolatility_amended (series : List Pt) :
    (calcVolatility series = none ↔ (jsFinValues series).length < 2)
    ∧ (2 ≤ (jsFinValues series).length →
        calcVolatility series = some (specStd (growthList (jsFinValues series)))) := by
  constructor
  · unfold calcVolatility
    by_cases h : (jsFinValues series).length < 2
    · simp [h]
    · simp [h]
  · intro h
    unfold calcVolatility
    rw [if_neg (by omega)]
    simp only [calcStats_wrap_std]

/-- C6 witness: the amended theorem applied at the concrete series
`[(2000, 1), (2001, 2)]`. -/
theorem calcVolatility_amended_witness :
    calcVolatility [(⟨2000, some (JsNum.num 1)⟩ : Pt), ⟨2001, some (JsNum.num 2)⟩]
      = some (specStd (growthList
          (jsFinValues [(⟨2000, some (JsNum.num 1)⟩ : Pt), ⟨2001, some (JsNum.num 2)⟩]))) :=
  (calcVolatility_amended _).2 (by simp [jsFinValues, validFin])

/-- C9: `PG.pearson` aligns on the null check alone — `isFinite` is
not applied — so a NaN input value enters the aligned pairs and the
returned correlation is NaN.  At the concrete input below, the series
have four overlapping years and `x(2001) = NaN`: the alignment keeps
the `(NaN, 3)` pair and the whole correlation collapses to NaN. -/
theorem pearson_nonfinite_bug :
    (JsNum.nan, JsNum.num 3) ∈ pearsonPairs
        [(⟨2000, some (JsNum.num 1)⟩ : Pt), ⟨2001, some JsNum.nan⟩,
         ⟨2002, some (JsNum.num 2)⟩, ⟨2003, some (JsNum.num 4)⟩]
        [(⟨2000, some (JsNum.num 2)⟩ : Pt), ⟨2001, some (JsNum.num 3)⟩,
         ⟨2002, some (JsNum.num 5)⟩, ⟨2003, some (JsNum.num 1)⟩]
    ∧ pearson
        [(⟨2000, some (JsNum.num 1)⟩ : Pt), ⟨2001, some JsNum.nan⟩,
         ⟨2002, some (JsNum.num 2)⟩, ⟨2003, some (JsNum.num 4)⟩]
        [(⟨2000, some (JsNum.num 2)⟩ : Pt), ⟨2001, some (JsNum.num 3)⟩,
         ⟨2002, some (JsNum.num 5)⟩, ⟨2003, some (JsNum.num 1)⟩]
      = some JsNum.nan := by
  have hp : pearsonPairs
        [(⟨2000, some (JsNum.num 1)⟩ : Pt), ⟨2001, some JsNum.nan⟩,
         ⟨2002, some (JsNum.num 2)⟩, ⟨2003, some (JsNum.num 4)⟩]
        [(⟨2000, some (JsNum.num 2)⟩ : Pt), ⟨2001, some (JsNum.num 3)⟩,
         ⟨2002, some (JsNum.num 5)⟩, ⟨2003, some (JsNum.num 1)⟩]
      = [(JsNum.num 1, JsNum.num 2), (JsNum.nan, JsNum.num 3),
         (JsNum.num 2, JsNum.num 5), (JsNum.num 4, JsNum.num 1)] := rfl
  constructor
  · rw [hp]
    simp
  · unfold pearson
    rw [hp]
    simp only [List.length_cons, List.length_nil, List.map_cons, List.map_nil, List.zip_cons_cons,
      List.zip_nil_right, List.foldl_cons, List.foldl_nil]
    norm_num [JsNum.jadd, JsNum.jdiv, JsNum.jsub, JsNum.jneg, JsNum.jmul, JsNum.jsqrt,
      JsNum.jeq0, JsNum.jround]

/-- C3 counterexample: for the six-point series with values
`[10,10,10,10,10,100]`, z-score mode with threshold 2.5 flags
nothing at all — the outlier's z-score is `75/√1350 ≈ 2.04 < 2.5`
(sample standard deviation, `n-1` denominator) — so in particular
the value-100 point is NOT flagged, contrary to the claim. -/
theorem detectAnomalies_c3_ce :
    (detectAnomalies
      [⟨2000, some (JsNum.num 10)⟩, ⟨2001, some (JsNum.num 10)⟩, ⟨2002, some (JsNum.num 10)⟩,
       ⟨2003, some (JsNum.num 10)⟩, ⟨2004, some (JsNum.num 10)⟩, ⟨2005, some (JsNum.num 100)⟩]
      AMethod.zscore 2.5).anomalies = [] := by
  have hs : (0:ℝ) < Real.sqrt 1350 := Real.sqrt_pos.mpr (by norm_num)
  have h30 : (30:ℝ) < Real.sqrt 1350 := by
    rw [show (1350:ℝ) = 30 ^ 2 + 450 by norm_num]
    nlinarith [Real.sq_sqrt (show (0:ℝ) ≤ 30 ^ 2 + 450 by norm_num),
      Real.sqrt_nonneg ((30:ℝ) ^ 2 + 450)]
  have hst : calcStats
      [⟨2000, some (JsNum.num 10)⟩, ⟨2001, some (JsNum.num 10)⟩, ⟨2002, some (JsNum.num 10)⟩,
       ⟨2003, some (JsNum.num 10)⟩, ⟨2004, some (JsNum.num 10)⟩, ⟨2005, some (JsNum.num 100)⟩]
      = ⟨25, Real.sqrt 1350, 10, 100, 10, 6, 1350⟩ := by
    norm_num [calcStats, jsFinValues, validFin, toR, List.insertionSort,
      List.orderedInsert, Stats.zero, List.getD]
  have hz10 : ¬ ((5/2:ℝ) ≤ anomZ 25 (Real.sqrt 1350) 10) := by
    unfold anomZ
    rw [if_pos hs, abs_div, abs_of_nonneg (Real.sqrt_nonneg _),
      show |(10:ℝ) - 25| = 15 by rw [abs_of_nonpos] <;> norm_num]
    rw [not_le, div_lt_iff₀ hs]
    nlinarith
  have hz100 : ¬ ((5/2:ℝ) ≤ anomZ 25 (Real.sqrt 1350) 100) := by
    unfold anomZ
    rw [if_pos hs, abs_div, abs_of_nonneg (Real.sqrt_nonneg _),
      show |(100:ℝ) - 25| = 75 by rw [abs_of_nonneg] <;> norm_num]
    rw [not_le, div_lt_iff₀ hs]
    nlinarith
  unfold detectAnomalies
  rw [show (finPts
      [⟨2000, some (JsNum.num 10)⟩, ⟨2001, some (JsNum.num 10)⟩, ⟨2002, some (JsNum.num 10)⟩,
       ⟨2003, some (JsNum.num 10)⟩, ⟨2004, some (JsNum.num 10)⟩, ⟨2005, some (JsNum.num 100)⟩])
      = [⟨2000, some (JsNum.num 10)⟩, ⟨2001, some (JsNum.num 10)⟩, ⟨2002, some (JsNum.num 10)⟩,
       ⟨2003, some (JsNum.num 10)⟩, ⟨2004, some (JsNum.num 10)⟩, ⟨2005, some (JsNum.num 100)⟩]
      from rfl]
  simp only [hst]
  norm_num [anomFlag, toR, hz10, hz100, List.filterMap]

/-- C3 (amended): for the same series, `iqr` mode (and therefore
`both`, the default) flags exactly the value-100 point — the
positional quartiles are both 10, giving a degenerate fence — while
z-score mode with threshold 2.5 flags nothing (previous theorem). -/
theorem detectAnomalies_c3_amended :
    (detectAnomalies
      [⟨2000, some (JsNum.num 10)⟩, ⟨2001, some (JsNum.num 10)⟩, ⟨2002, some (JsNum.num 10)⟩,
       ⟨2003, some (JsNum.num 10)⟩, ⟨2004, some (JsNum.num 10)⟩, ⟨2005, some (JsNum.num 100)⟩]
      AMethod.iqr 2.5).anomalies.map Anomaly.point = [⟨2005, some (JsNum.num 100)⟩]
    ∧ (detectAnomalies
      [⟨2000, some (JsNum.num 10)⟩, ⟨2001, some (JsNum.num 10)⟩, ⟨2002, some (JsNum.num 10)⟩,
       ⟨2003, some (JsNum.num 10)⟩, ⟨2004, some (JsNum.num 10)⟩, ⟨2005, some (JsNum.num 100)⟩]
      AMethod.both 2.5).anomalies.map Anomaly.point = [⟨2005, some (JsNum.num 100)⟩] := by
  have hs : (0:ℝ) < Real.sqrt 1350 := Real.sqrt_pos.mpr (by norm_num)
  have hst : calcStats
      [⟨2000, some (JsNum.num 10)⟩, ⟨2001, some (JsNum.num 10)⟩, ⟨2002, some (JsNum.num 10)⟩,
       ⟨2003, some (JsNum.num 10)⟩, ⟨2004, some (JsNum.num 10)⟩, ⟨2005, some (JsNum.num 100)⟩]
      = ⟨25, Real.sqrt 1350, 10, 100, 10, 6, 1350⟩ := by
    norm_num [calcStats, jsFinValues, validFin, toR, List.insertionSort,
      List.orderedInsert, Stats.zero, List.getD]
  have hz10 : ¬ ((5/2:ℝ) ≤ anomZ 25 (Real.sqrt 1350) 10) := by
    unfold anomZ
    rw [if_pos hs, abs_div, abs_of_nonneg (Real.sqrt_nonneg _),
      show |(10:ℝ) - 25| = 15 by rw [abs_of_nonpos] <;> norm_num]
    rw [not_le, div_lt_iff₀ hs]
    nlinarith [Real.sq_sqrt (show (0:ℝ) ≤ 1350 by norm_num), Real.sqrt_nonneg (1350:ℝ), hs]
  have hz100 : ¬ ((5/2:ℝ) ≤ anomZ 25 (Real.sqrt 1350) 100) := by
    have h30 : (30:ℝ) < Real.sqrt 1350 := by
      rw [show (1350:ℝ) = 30 ^ 2 + 450 by norm_num]
      nlinarith [Real.sq_sqrt (show (0:ℝ) ≤ 30 ^ 2 + 450 by norm_num),
        Real.sqrt_nonneg ((30:ℝ) ^ 2 + 450)]
    unfold anomZ
    rw [if_pos hs, abs_div, abs_of_nonneg (Real.sqrt_nonneg _),
      show |(100:ℝ) - 25| = 75 by rw [abs_of_nonneg] <;> norm_num]
    rw [not_le, div_lt_iff₀ hs]
    nlinarith
  constructor
  · unfold detectAnomalies
    rw [show (finPts
        [⟨2000, some (JsNum.num 10)⟩, ⟨2001, some (JsNum.num 10)⟩, ⟨2002, some (JsNum.num 10)⟩,
         ⟨2003, some (JsNum.num 10)⟩, ⟨2004, some (JsNum.num 10)⟩, ⟨2005, some (JsNum.num 100)⟩])
        = [⟨2000, some (JsNum.num 10)⟩, ⟨2001, some (JsNum.num 10)⟩, ⟨2002, some (JsNum.num 10)⟩,
         ⟨2003, some (JsNum.num 10)⟩, ⟨2004, some (JsNum.num 10)⟩, ⟨2005, some (JsNum.num 100)⟩]
        from rfl]
    simp only [hst]
    norm_num [anomFlag, toR, hz10, hz100, List.filterMap, List.getD, List.insertionSort,
      List.orderedInsert]
  · unfold detectAnomalies
    rw [show (finPts
        [⟨2000, some (JsNum.num 10)⟩, ⟨2001, some (JsNum.num 10)⟩, ⟨2002, some (JsNum.num 10)⟩,
         ⟨2003, some (JsNum.num 10)⟩, ⟨2004, some (JsNum.num 10)⟩, ⟨2005, some (JsNum.num 100)⟩])
        = [⟨2000, some (JsNum.num 10)⟩, ⟨2001, some (JsNum.num 10)⟩, ⟨2002, some (JsNum.num 10)⟩,
         ⟨2003, some (JsNum.num 10)⟩, ⟨2004, some (JsNum.num 10)⟩, ⟨2005, some (JsNum.num 100)⟩]
        from rfl]
    simp only [hst]
    norm_num [anomFlag, toR, hz10, hz100, List.filterMap, List.getD, List.insertionSort,
      List.orderedInsert]

/-- Re-filtering an already-filtered series changes nothing. -/
theorem jsFinValues_finPts (series : List Pt) :
    jsFinValues (finPts series) = jsFinValues series := by
  induction series with
  | nil => rfl
  | cons p l ih =>
      cases h : validFin p.value with
      | true => simpa [jsFinValues, finPts, List.filter_cons, h] using ih
      | false => simpa [jsFinValues, finPts, List.filter_cons, h] using ih

theorem map_toR_finPts (series : List Pt) :
    (finPts series).map (fun d => toR d.value) = jsFinValues series := by
  induction series with
  | nil => rfl
  | cons p l ih =>
      cases h : validFin p.value with
      | true => simpa [jsFinValues, finPts, List.filter_cons, h] using ih
      | false => simpa [jsFinValues, finPts, List.filter_cons, h] using ih

/-- C10: with fewer than 4 valid points `detectAnomalies` returns
exactly `{anomalies: [], normal: vals}` with no stats summary
(`stats = none`); with 4 or more valid points the result carries the
stats summary `{mean, std, q1, q3, iqr, iqrLow, iqrHigh}`, with the
mean/std from `calcStats` and the positional quartiles
`sorted[n/4]`, `sorted[3n/4]`. -/
theorem detectAnomalies_stats (series : List Pt) (method : AMethod) (threshold : ℝ) :
    ((finPts series).length < 4 →
      detectAnomalies series method threshold = ⟨[], finPts series, none⟩)
    ∧ (4 ≤ (finPts series).length →
        (detectAnomalies series method threshold).stats =
          some (let vs := jsFinValues series
                let n := vs.length
                let mean := vs.sum / (n : ℝ)
                let sorted := vs.insertionSort (· ≤ ·)
                let q1 := sorted.getD (n / 4) 0
                let q3 := sorted.getD (3 * n / 4) 0
                ⟨mean,
                 Real.sqrt ((vs.map (fun b => (b - mean) ^ 2)).sum / ((n - 1 : ℕ) : ℝ)),
                 q1, q3, q3 - q1, q1 - 1.5 * (q3 - q1), q3 + 1.5 * (q3 - q1)⟩)) := by
  have hlen : (finPts series).length = (jsFinValues series).length := by
    rw [← map_toR_finPts series, List.length_map]
  constructor
  · intro h
    unfold detectAnomalies
    rw [if_pos h]
  · intro h
    unfold detectAnomalies
    rw [if_neg (by omega)]
    simp only [map_toR_finPts]
    unfold calcStats
    rw [jsFinValues_finPts]
    rw [if_neg (by omega), if_pos (by omega)]
    rw [hlen]

/-- C10 witness: the short-series branch at a concrete 2-point
series, and the stats branch at a concrete 4-point series. -/
theorem detectAnomalies_stats_witness :
    detectAnomalies [(⟨2000, some (JsNum.num 1)⟩ : Pt), ⟨2001, some (JsNum.num 2)⟩]
        AMethod.both 2.5
      = ⟨[], [⟨2000, some (JsNum.num 1)⟩, ⟨2001, some (JsNum.num 2)⟩], none⟩
    ∧ (detectAnomalies [(⟨2000, some (JsNum.num 1)⟩ : Pt), ⟨2001, some (JsNum.num 2)⟩,
        ⟨2002, some (JsNum.num 3)⟩, ⟨2003, some (JsNum.num 4)⟩] AMethod.both 2.5).stats.isSome
      = true := by
  constructor
  · exact (detectAnomalies_stats _ AMethod.both 2.5).1 (by norm_num [finPts, validFin])
  · rw [(detectAnomalies_stats _ AMethod.both 2.5).2 (by norm_num [finPts, validFin])]
    rfl

/-- C5: the reported MAPE is NOT the mean over nonzero-actual pairs.
For the series `[(2000,1),(2001,2),(2002,4),(2003,0)]` (defaults
`alpha=0.3, beta=0.1`), the three nonzero-actual percentage errors
sum to 148.0275, but the code divides the filtered sum by the full
`n = 4`, reporting 37.006875 where the spec's formula gives 49.3425
(the mean over the 3 nonzero-actual pairs).  (The code also re-reads
`data[i]` at post-filter indices; at this input the kept indices
coincide, isolating the divisor bug.) -/
theorem holtwinters_mape_bug :
    ((holtwinters [⟨2000, some (JsNum.num 1)⟩, ⟨2001, some (JsNum.num 2)⟩,
        ⟨2002, some (JsNum.num 4)⟩, ⟨2003, some (JsNum.num 0)⟩] 0.3 0.1 5 95).map
      (fun r => r.accuracy.mape)) = some (JsNum.num 37.006875)
    ∧ mapeSpec [1, 2, 4, 0] (hwLoop 0.3 0.1 [1, 2, 4, 0] 1 1).2.1 = 49.3425
    ∧ (37.006875 : ℝ) ≠ 49.3425 := by
  refine ⟨?_, ?_, by norm_num⟩
  · unfold holtwinters
    rw [show (finPts [⟨2000, some (JsNum.num 1)⟩, ⟨2001, some (JsNum.num 2)⟩,
        ⟨2002, some (JsNum.num 4)⟩, ⟨2003, some (JsNum.num 0)⟩])
        = [⟨2000, some (JsNum.num 1)⟩, ⟨2001, some (JsNum.num 2)⟩,
        ⟨2002, some (JsNum.num 4)⟩, ⟨2003, some (JsNum.num 0)⟩] from rfl]
    norm_num [hwLoop, toR, List.getD, List.filterMap, List.enum_cons, List.enumFrom_cons,
      List.enum_nil, List.enumFrom_nil, JsNum.jadd, JsNum.jdiv, JsNum.jmul, JsNum.jabs]
    rw [abs_of_nonneg (by norm_num : (0:ℝ) ≤ 67 / 200),
      abs_of_nonneg (by norm_num : (0:ℝ) ≤ 5811 / 40000)]
    norm_num
  · norm_num [mapeSpec, hwLoop, List.zip, List.filterMap]
    rw [abs_of_nonneg (by norm_num : (0:ℝ) ≤ 67 / 200),
      abs_of_nonneg (by norm_num : (0:ℝ) ≤ 5811 / 40000)]
    norm_num

/-- C4 counterexample: for the constant series `[(2000,7),(2001,7),
(2002,7)]` (3 valid points), `pearson(s, s)` returns `0`, not
`1.0`: the denominator is zero and the degenerate-denominator branch
returns the safe default 0. -/
theorem pearson_self_const_ce :
    pearson [(⟨2000, some (JsNum.num 7)⟩ : Pt), ⟨2001, some (JsNum.num 7)⟩,
             ⟨2002, some (JsNum.num 7)⟩]
            [(⟨2000, some (JsNum.num 7)⟩ : Pt), ⟨2001, some (JsNum.num 7)⟩,
             ⟨2002, some (JsNum.num 7)⟩]
      = some (JsNum.num 0) := by
  have hp : pearsonPairs
      [(⟨2000, some (JsNum.num 7)⟩ : Pt), ⟨2001, some (JsNum.num 7)⟩,
       ⟨2002, some (JsNum.num 7)⟩]
      [(⟨2000, some (JsNum.num 7)⟩ : Pt), ⟨2001, some (JsNum.num 7)⟩,
       ⟨2002, some (JsNum.num 7)⟩]
      = [(JsNum.num 7, JsNum.num 7), (JsNum.num 7, JsNum.num 7), (JsNum.num 7, JsNum.num 7)] := rfl
  unfold pearson
  rw [hp]
  norm_num [JsNum.jadd, JsNum.jdiv, JsNum.jsub, JsNum.jneg, JsNum.jmul, JsNum.jsqrt,
    JsNum.jeq0, List.zip]

/-- Folding JS `+` over finite values from a finite start stays
finite and sums the payloads. -/
theorem foldl_jadd_num (l : List ℝ) (a : ℝ) :
    List.foldl JsNum.jadd (JsNum.num a) (l.map JsNum.num) = JsNum.num (a + l.sum) := by
  induction l generalizing a with
  | nil => simp
  | cons x xs ih =>
      simp only [List.map_cons, List.foldl_cons, JsNum.jadd, ih]
      rw [List.sum_cons, ← add_assoc]

theorem lastNonNull_shape (s : List Pt)
    (hfin : ∀ p ∈ s, p.value = none ∨ ∃ r : ℝ, p.value = some (JsNum.num r)) (yr : ℤ) :
    lastNonNull s yr = none ∨ ∃ r : ℝ, lastNonNull s yr = some (JsNum.num r) := by
  unfold lastNonNull
  cases hL : (((s.filter (fun p => decide (p.year = yr) && p.value.isSome)).map Pt.value)).getLast? with
  | none => left; rfl
  | some v =>
      have hv : v ∈ (s.filter (fun p => decide (p.year = yr) && p.value.isSome)).map Pt.value :=
        List.mem_of_mem_getLast? (by rw [hL]; rfl)
      rcases List.mem_map.mp hv with ⟨p, hpmem, hpv⟩
      have hps : p ∈ s := List.mem_of_mem_filter hpmem
      rcases hfin p hps with h0 | ⟨r, hr⟩
      · left
        show v = none
        exact hpv ▸ h0
      · right
        exact ⟨r, show v = some (JsNum.num r) from hpv ▸ hr⟩
theorem pearsonPairs_self_shape (s : List Pt)
    (hfin : ∀ p ∈ s, p.value = none ∨ ∃ r : ℝ, p.value = some (JsNum.num r)) :
    ∃ rs : List ℝ, pearsonPairs s s = rs.map (fun r => (JsNum.num r, JsNum.num r)) := by
  unfold pearsonPairs
  induction alignYears s with
  | nil => exact ⟨[], rfl⟩
  | cons yr l ih =>
      rcases ih with ⟨rs, hrs⟩
      rcases lastNonNull_shape s hfin yr with h | ⟨r, hr⟩
      · exact ⟨rs, by simp only [List.filterMap_cons, h, hrs]⟩
      · exact ⟨r :: rs, by simp only [List.filterMap_cons, hr, hrs, List.map_cons]⟩

theorem list_sum_eq_zero_all (l : List ℝ) (hnn : ∀ z ∈ l, 0 ≤ z) (h0 : l.sum = 0) :
    ∀ z ∈ l, z = 0 := by
  induction l with
  | nil => simp
  | cons a t ih =>
      have ha : 0 ≤ a := hnn a (by simp)
      have ht : 0 ≤ t.sum := List.sum_nonneg (fun z hz => hnn z (by simp [hz]))
      rw [List.sum_cons] at h0
      have ha0 : a = 0 := by linarith
      have ht0 : t.sum = 0 := by linarith
      intro z hz
      rcases List.mem_cons.mp hz with rfl | hz'
      · exact ha0
      · exact ih (fun w hw => hnn w (by simp [hw])) ht0 z hz'

theorem list_sum_sq_pos (rs : List ℝ) (m x y : ℝ) (hx : x ∈ rs) (hy : y ∈ rs) (hxy : x ≠ y) :
    0 < (rs.map (fun r => (r - m) * (r - m))).sum := by
  have hnn : ∀ z ∈ rs.map (fun r => (r - m) * (r - m)), 0 ≤ z := by
    intro z hz
    rcases List.mem_map.mp hz with ⟨r, _, rfl⟩
    exact mul_self_nonneg _
  rcases (List.sum_nonneg hnn).lt_or_eq with h | h
  · exact h
  · exfalso
    have hall := list_sum_eq_zero_all _ hnn h.symm
    have hx0 : (x - m) * (x - m) = 0 := hall _ (List.mem_map.mpr ⟨x, hx, rfl⟩)
    have hy0 : (y - m) * (y - m) = 0 := hall _ (List.mem_map.mpr ⟨y, hy, rfl⟩)
    have hxm : x = m := by nlinarith
    have hym : y = m := by nlinarith
    exact hxy (hxm.trans hym.symm)

theorem foldl_pearson_acc (m : ℝ) (l : List ℝ) (a b c : ℝ) :
    List.foldl
      (fun acc p =>
        (JsNum.jadd acc.1 (JsNum.jmul (JsNum.jsub p.1 (JsNum.num m)) (JsNum.jsub p.2 (JsNum.num m))),
         JsNum.jadd acc.2.1 (JsNum.jmul (JsNum.jsub p.1 (JsNum.num m)) (JsNum.jsub p.1 (JsNum.num m))),
         JsNum.jadd acc.2.2 (JsNum.jmul (JsNum.jsub p.2 (JsNum.num m)) (JsNum.jsub p.2 (JsNum.num m)))))
      (JsNum.num a, JsNum.num b, JsNum.num c) (l.map (fun r => (JsNum.num r, JsNum.num r)))
    = (JsNum.num (a + (l.map (fun r => (r - m) * (r - m))).sum),
       JsNum.num (b + (l.map (fun r => (r - m) * (r - m))).sum),
       JsNum.num (c + (l.map (fun r => (r - m) * (r - m))).sum)) := by
  induction l generalizing a b c with
  | nil => simp
  | cons x xs ih =>
      simp only [List.map_cons, List.foldl_cons]
      refine (ih (a + (x + -m) * (x + -m)) (b + (x + -m) * (x + -m))
        (c + (x + -m) * (x + -m))).trans ?_
      simp only [Prod.mk.injEq, JsNum.num.injEq, List.sum_cons]
      refine ⟨by ring, by ring, by ring⟩

/-- C4 (amended): `pearson(s, s) = 1.0` for every series whose
non-null values are all finite, whenever the self-alignment yields
at least 3 pairs and the paired values are not all equal (nonzero
denominator).  The claim as stated fails on constant series, where
the zero-denominator default of 0 is returned instead. -/
theorem pearson_self_amended (s : List Pt)
    (hfin : ∀ p ∈ s, p.value = none ∨ ∃ r : ℝ, p.value = some (JsNum.num r))
    (hlen : 3 ≤ (pearsonPairs s s).length)
    (hne : ∃ u ∈ pearsonPairs s s, ∃ v ∈ pearsonPairs s s, u.1 ≠ v.1) :
    pearson s s = some (JsNum.num 1) := by
  obtain ⟨rs, hrs⟩ := pearsonPairs_self_shape s hfin
  rw [hrs] at hlen hne
  have hlen' : 3 ≤ rs.length := by simpa using hlen
  obtain ⟨u, hu, v, hv, huv⟩ := hne
  obtain ⟨x, hx, rfl⟩ := List.mem_map.mp hu
  obtain ⟨y, hy, rfl⟩ := List.mem_map.mp hv
  have hxy : x ≠ y := by
    intro h
    exact huv (by rw [h])
  have hncast : ((rs.length : ℝ)) ≠ 0 := Nat.cast_ne_zero.mpr (by omega)
  set m : ℝ := (0 + rs.sum) / (rs.length : ℝ) with hm
  have hS : 0 < (rs.map (fun r => (r - m) * (r - m))).sum :=
    list_sum_sq_pos rs m x y hx hy hxy
  set S : ℝ := (rs.map (fun r => (r - m) * (r - m))).sum with hSdef
  have hSne : (0 : ℝ) + S ≠ 0 := by linarith
  unfold pearson
  rw [hrs]
  simp only [List.length_map, List.map_map]
  rw [if_neg (by omega)]
  have hfst : (Prod.fst ∘ fun r : ℝ => (JsNum.num r, JsNum.num r)) = JsNum.num := rfl
  have hsnd : (Prod.snd ∘ fun r : ℝ => (JsNum.num r, JsNum.num r)) = JsNum.num := rfl
  rw [hfst, hsnd]
  simp only [foldl_jadd_num]
  rw [show JsNum.jdiv (JsNum.num (0 + rs.sum)) (JsNum.num (rs.length : ℝ))
      = JsNum.num m from by rw [JsNum.jdiv, if_neg hncast]]
  rw [List.zip_map']
  rw [show (fun a : ℝ => (JsNum.num a, JsNum.num a)) = (fun r : ℝ => (JsNum.num r, JsNum.num r))
      from rfl]
  rw [foldl_pearson_acc m rs 0 0 0]
  simp only []
  rw [show JsNum.jmul (JsNum.num (0 + S)) (JsNum.num (0 + S))
      = JsNum.num ((0 + S) * (0 + S)) from rfl]
  rw [show JsNum.jsqrt (JsNum.num ((0 + S) * (0 + S))) = JsNum.num (0 + S) from by
    rw [JsNum.jsqrt, if_neg (not_lt.mpr (mul_self_nonneg _)),
      Real.sqrt_mul_self (by linarith)]]
  rw [show JsNum.jeq0 (JsNum.num (0 + S)) = false from by
    simp [JsNum.jeq0, ne_of_gt hS]]
  simp only [Bool.false_eq_true, if_false]
  rw [show JsNum.jdiv (JsNum.num (0 + S)) (JsNum.num (0 + S)) = JsNum.num 1 from by
    rw [JsNum.jdiv, if_neg hSne, div_self hSne]]
  rw [show JsNum.jmul (JsNum.num 1) (JsNum.num 1000) = JsNum.num 1000 from by
    rw [JsNum.jmul]; norm_num]
  rw [show JsNum.jround (JsNum.num 1000) = JsNum.num 1000 from by
    rw [JsNum.jround]
    norm_num]
  rw [show JsNum.jdiv (JsNum.num 1000) (JsNum.num 1000) = JsNum.num 1 from by
    rw [JsNum.jdiv]; norm_num]

/-- C4 witness: the amended theorem applied at the concrete series
`[(2000,1),(2001,2),(2002,3)]`. -/
theorem pearson_self_amended_witness :
    pearson
        [(⟨2000, some (JsNum.num 1)⟩ : Pt), ⟨2001, some (JsNum.num 2)⟩, ⟨2002, some (JsNum.num 3)⟩]
        [(⟨2000, some (JsNum.num 1)⟩ : Pt), ⟨2001, some (JsNum.num 2)⟩, ⟨2002, some (JsNum.num 3)⟩]
      = some (JsNum.num 1) := by
  have hp : pearsonPairs
      [(⟨2000, some (JsNum.num 1)⟩ : Pt), ⟨2001, some (JsNum.num 2)⟩, ⟨2002, some (JsNum.num 3)⟩]
      [(⟨2000, some (JsNum.num 1)⟩ : Pt), ⟨2001, some (JsNum.num 2)⟩, ⟨2002, some (JsNum.num 3)⟩]
      = [(JsNum.num 1, JsNum.num 1), (JsNum.num 2, JsNum.num 2), (JsNum.num 3, JsNum.num 3)] := rfl
  refine pearson_self_amended _ ?_ ?_ ?_
  · intro p hpmem
    fin_cases hpmem <;> exact Or.inr ⟨_, rfl⟩
  · rw [hp]
    simp
  · rw [hp]
    refine ⟨(JsNum.num 1, JsNum.num 1), by simp, (JsNum.num 2, JsNum.num 2), by simp, ?_⟩
    simp only [JsNum.num.injEq]
    norm_num

/-- `orderedInsert` preserves sortedness when the relation is total
and transitive on the elements involved (the JS insight comparator
is not total on NaN, which never occurs in the inserted list). -/
theorem sorted_orderedInsert_of_forall {α : Type} (r : α → α → Prop) [DecidableRel r]
    (P : α → Prop)
    (htot : ∀ x y, P x → P y → r x y ∨ r y x)
    (htrans : ∀ x y z, P x → P y → P z → r x y → r y z → r x z)
    (a : α) (hPa : P a) :
    ∀ l : List α, (∀ x ∈ l, P x) → l.Sorted r → (l.orderedInsert r a).Sorted r
  | [], _, _ => List.sorted_singleton a
  | b :: t, hPl, hs => by
      have hPb : P b := hPl b (by simp)
      have hPt : ∀ x ∈ t, P x := fun x hx => hPl x (by simp [hx])
      by_cases h' : r a b
      · rw [List.orderedInsert, if_pos h', List.sorted_cons]
        refine ⟨?_, hs⟩
        intro c hc
        rcases List.mem_cons.mp hc with rfl | hct
        · exact h'
        · exact htrans a b c hPa hPb (hPt c hct) h' (List.rel_of_sorted_cons hs c hct)
      · rw [List.orderedInsert, if_neg h', List.sorted_cons]
        refine ⟨?_, sorted_orderedInsert_of_forall r P htot htrans a hPa t hPt hs.of_cons⟩
        intro c hc
        rcases (List.mem_orderedInsert r).mp hc with rfl | hct
        · exact (htot _ _ hPa hPb).resolve_left h'
        · exact List.rel_of_sorted_cons hs c hct

theorem sorted_insertionSort_of_forall {α : Type} (r : α → α → Prop) [DecidableRel r]
    (P : α → Prop)
    (htot : ∀ x y, P x → P y → r x y ∨ r y x)
    (htrans : ∀ x y z, P x → P y → P z → r x y → r y z → r x z) :
    ∀ l : List α, (∀ x ∈ l, P x) → (l.insertionSort r).Sorted r
  | [], _ => List.sorted_nil
  | a :: l, hP => by
      rw [List.insertionSort]
      refine sorted_orderedInsert_of_forall r P htot htrans a (hP a (by simp)) _ ?_
        (sorted_insertionSort_of_forall r P htot htrans l (fun x hx => hP x (by simp [hx])))
      intro x hx
      exact hP x (by simp [(List.mem_insertionSort r).mp hx])

/-- The insight comparator `|a| ≥ |b|` is total away from NaN. -/
theorem jgeAbs_total (x y : JsNum) (hx : x ≠ JsNum.nan) (hy : y ≠ JsNum.nan) :
    JsNum.jge (JsNum.jabs x) (JsNum.jabs y) = true
      ∨ JsNum.jge (JsNum.jabs y) (JsNum.jabs x) = true := by
  cases x <;> cases y <;> simp_all [JsNum.jge, JsNum.jabs] <;> exact le_total _ _

theorem jgeAbs_trans (x y z : JsNum) (h1 : JsNum.jge (JsNum.jabs x) (JsNum.jabs y) = true)
    (h2 : JsNum.jge (JsNum.jabs y) (JsNum.jabs z) = true) :
    JsNum.jge (JsNum.jabs x) (JsNum.jabs z) = true := by
  cases x <;> cases y <;> cases z <;> simp_all [JsNum.jge, JsNum.jabs] <;> linarith

theorem mem_pmPushed_ge (ds : List DataSet) (e : JsNum) (he : e ∈ pmPushed ds) :
    JsNum.jge (JsNum.jabs e) (JsNum.num 0.45) = true := by
  unfold pmPushed at he
  rcases List.mem_flatMap.mp he with ⟨i, hi, hmem⟩
  rcases List.mem_filterMap.mp hmem with ⟨j, hj, hfj⟩
  by_cases hij : i < j
  · rw [if_pos hij] at hfj
    cases hE : pmEntry ds i j with
    | none => rw [hE] at hfj; cases hfj
    | some r0 =>
        rw [hE] at hfj
        by_cases hcond : JsNum.jge (JsNum.jabs r0) (JsNum.num 0.45) = true
        · simp only [hcond, if_true] at hfj
          cases hfj
          exact hcond
        · simp only [hcond] at hfj
          simp at hfj
  · rw [if_neg hij] at hfj
    cases hfj

theorem mem_pmPushed_ne_nan (ds : List DataSet) (e : JsNum) (he : e ∈ pmPushed ds) :
    e ≠ JsNum.nan := by
  intro h
  have := mem_pmPushed_ge ds e he
  rw [h] at this
  simp [JsNum.jge, JsNum.jabs] at this

/-- Reading a mapped range at an in-range index. -/
theorem getD_map_range {α : Type} (k i : ℕ) (hi : i < k) (f : ℕ → α) (d : α) :
    ((List.range k).map f).getD i d = f i := by
  rw [List.getD_eq_getElem?_getD, List.getElem?_map, List.getElem?_range hi]
  rfl

theorem pmEntry_symm (ds : List DataSet) (i j : ℕ) : pmEntry ds i j = pmEntry ds j i := by
  unfold pmEntry
  rcases lt_trichotomy i j with h | h | h
  · rw [if_neg (ne_of_lt h), if_pos h, if_neg (ne_of_lt h).symm,
      if_neg (not_lt.mpr (le_of_lt h))]
  · rw [h]
  · rw [if_neg (ne_of_gt h), if_neg (not_lt.mpr (le_of_lt h)), if_neg (ne_of_gt h).symm,
      if_pos h]

/-- C8: for every list of datasets, the correlation matrix is square
(`k` rows of length `k`), every diagonal entry is fixed at `1.0`, the
matrix is symmetric, and the insight list contains only entries with
`|r| ≥ 0.45`, is sorted by descending `|r|`, and has at most 5
entries. -/
theorem pearsonMatrix_spec (ds : List DataSet) :
    (pearsonMatrix ds).matrix.length = ds.length
    ∧ (∀ row ∈ (pearsonMatrix ds).matrix, row.length = ds.length)
    ∧ (∀ i, i < ds.length →
        ((pearsonMatrix ds).matrix.getD i []).getD i none = some (JsNum.num 1))
    ∧ (∀ i j, i < ds.length → j < ds.length →
        ((pearsonMatrix ds).matrix.getD i []).getD j none
          = ((pearsonMatrix ds).matrix.getD j []).getD i none)
    ∧ (∀ e ∈ (pearsonMatrix ds).insights, JsNum.jge (JsNum.jabs e) (JsNum.num 0.45) = true)
    ∧ List.Sorted (fun a b => JsNum.jge (JsNum.jabs a) (JsNum.jabs b) = true)
        (pearsonMatrix ds).insights
    ∧ (pearsonMatrix ds).insights.length ≤ 5 := by
  refine ⟨?_, ?_, ?_, ?_, ?_, ?_, ?_⟩
  · simp [pearsonMatrix, pmMatrix]
  · intro row hrow
    simp only [pearsonMatrix, pmMatrix, List.mem_map] at hrow
    rcases hrow with ⟨i, hi, rfl⟩
    simp
  · intro i hi
    simp only [pearsonMatrix]
    unfold pmMatrix
    rw [getD_map_range _ _ hi _ _]
    rw [getD_map_range _ _ hi _ _]
    unfold pmEntry
    simp
  · intro i j hi hj
    simp only [pearsonMatrix]
    unfold pmMatrix
    rw [getD_map_range _ _ hi _ _]
    rw [getD_map_range _ _ hj _ _]
    rw [getD_map_range _ _ hj _ _]
    rw [getD_map_range _ _ hi _ _]
    exact pmEntry_symm ds i j
  · intro e he
    simp only [pearsonMatrix, pmInsights] at he
    exact mem_pmPushed_ge ds e ((List.mem_insertionSort _).mp (List.mem_of_mem_take he))
  · simp only [pearsonMatrix, pmInsights]
    refine List.Pairwise.sublist (List.take_sublist _ _) ?_
    refine sorted_insertionSort_of_forall _ (fun x => x ≠ JsNum.nan) ?_ ?_ _ ?_
    · intro x y hx hy
      exact jgeAbs_total x y hx hy
    · intro x y z _ _ _ h1 h2
      exact jgeAbs_trans x y z h1 h2
    · intro x hx
      exact mem_pmPushed_ne_nan ds x hx
  · simp only [pearsonMatrix, pmInsights]
    exact List.length_take_le _ _

/-- C8 witness: the diagonal clause applied at a concrete two-dataset
list. -/
theorem pearsonMatrix_spec_witness :
    ((pearsonMatrix [⟨"A", [⟨2000, some (JsNum.num 1)⟩]⟩, ⟨"B", []⟩]).matrix.getD 0 []).getD 0
        none = some (JsNum.num 1) :=
  (pearsonMatrix_spec [⟨"A", [⟨2000, some (JsNum.num 1)⟩]⟩, ⟨"B", []⟩]).2.2.1 0 (by simp)

/-- Accumulating present indicators with a fold equals the sums over
the filtered present list. -/
theorem foldl_indicator_acc (yd : List (Option ℝ)) (g : ℕ → RIndicator → ℝ → ℝ) :
    ∀ (il : List (ℕ × RIndicator)) (a b : ℝ),
    (il.foldl (fun acc p =>
        match yd.getD p.1 none with
        | none => acc
        | some val => (acc.1 + g p.1 p.2 val * p.2.weight, acc.2 + p.2.weight)) (a, b))
      = (a + ((il.filterMap (fun p => (yd.getD p.1 none).map (fun v => (p.1, p.2, v)))).map
            (fun q => g q.1 q.2.1 q.2.2 * q.2.1.weight)).sum,
         b + ((il.filterMap (fun p => (yd.getD p.1 none).map (fun v => (p.1, p.2, v)))).map
            (fun q => q.2.1.weight)).sum)
  | [], a, b => by simp
  | p :: t, a, b => by
      cases hv : yd.getD p.1 none with
      | none =>
          simp only [List.foldl_cons, List.filterMap_cons, hv, Option.map_none']
          exact foldl_indicator_acc yd g t a b
      | some v =>
          simp only [List.foldl_cons, List.filterMap_cons, hv, Option.map_some', List.map_cons,
            List.sum_cons]
          rw [foldl_indicator_acc yd g t]
          refine Prod.ext ?_ ?_ <;> · simp; ring

/-- One year of the composite scorer equals the spec formula with
the code's falsy prior-value rule. -/
theorem yearStep_eq_specStep (prev : Option (List (Option ℝ))) (year : ℤ)
    (yd : List (Option ℝ)) :
    yearStep prev year yd = specStep codePrevRule prev year yd := by
  unfold yearStep specStep
  rw [foldl_indicator_acc yd (fun i ind val => ind.signal val (codePrevRule prev i))]
  simp only [zero_add]
  have hrisk : ∀ p : ℝ,
      (if 0.6 ≤ p then "high" else if 0.35 ≤ p then "elevated"
        else if 0.15 ≤ p then "moderate" else "low")
      = (if p < 0.15 then "low" else if p < 0.35 then "moderate"
        else if p < 0.6 then "elevated" else "high") := by
    intro p
    split_ifs <;> first | rfl | linarith
  rw [hrisk]

/-- C7 (amended): the composite risk timeline matches the spec's
formula — probability = min(1, Σ(signal·weight)/Σ(weight present)),
0 with no indicators present, riskLevel bucketed at 0.15/0.35/0.6 —
with one amendment: the prior year's value is passed to a signal as
null not only when it is unavailable but also when it is exactly 0
(the code's `prevYearData[ind.code] || null` treats 0 as falsy). -/
theorem recessionTimeline_spec (l : List (ℤ × List (Option ℝ)))
    (prev : Option (List (Option ℝ))) :
    recessionTimeline prev l = specTimeline codePrevRule prev l := by
  induction l generalizing prev with
  | nil => rfl
  | cons h t ih =>
      cases h with
      | mk yr yd =>
          rw [recessionTimeline, specTimeline, yearStep_eq_specStep, ih]

/-- C7 counterexample: with unemployment 0 in 2000 and 3 in 2001,
the claim's formula sees delta = 3 > 2 in 2001 (signal 1, probability
100%), but the code nulls the falsy prior value 0 and reports 0%. -/
theorem recessionTimeline_prev_zero_ce :
    (recessionTimeline none
        [((2000 : ℤ), [none, some (0 : ℝ), none, none, none, none]),
         ((2001 : ℤ), [none, some (3 : ℝ), none, none, none, none])]).map
        TimelineEntry.probability
      = [0, 0]
    ∧ (specTimeline claimPrevRule none
        [((2000 : ℤ), [none, some (0 : ℝ), none, none, none, none]),
         ((2001 : ℤ), [none, some (3 : ℝ), none, none, none, none])]).map
        TimelineEntry.probability
      = [0, 100] := by
  constructor
  · norm_num [recessionTimeline, yearStep, specStep, recessionIndicators, codePrevRule,
      List.enum_cons, List.enumFrom_cons, List.enum_nil, List.enumFrom_nil, List.getD,
      min_def]
  · norm_num [specTimeline, specStep, recessionIndicators, claimPrevRule,
      List.enum_cons, List.enumFrom_cons, List.enum_nil, List.enumFrom_nil, List.getD,
      List.filterMap_cons, min_def]

/-- The year-keyed alignment holds a value exactly when the filtered
point list at that year is nonempty. -/
theorem lastFin_isSome_iff (s : List Pt) (yr : ℤ) :
    (lastFin s yr).isSome = true ↔ ∃ p ∈ s, p.year = yr ∧ validFin p.value = true := by
  unfold lastFin
  rw [List.getLast?_isSome]
  constructor
  · intro h
    have hne : s.filter (fun p => decide (p.year = yr) && validFin p.value) ≠ [] := by
      intro hnil
      rw [hnil] at h
      exact h rfl
    rcases List.exists_mem_of_ne_nil _ hne with ⟨p, hp⟩
    have hpred := List.of_mem_filter hp
    simp only [Bool.and_eq_true, decide_eq_true_eq] at hpred
    exact ⟨p, List.mem_of_mem_filter hp, hpred⟩
  · rintro ⟨p, hps, hyr, hval⟩
    intro hmapnil
    rw [List.map_eq_nil_iff] at hmapnil
    have hmem : p ∈ s.filter (fun p => decide (p.year = yr) && validFin p.value) :=
      List.mem_filter.mpr ⟨hps, by simp [hyr, hval]⟩
    rw [hmapnil] at hmem
    cases hmem

theorem mem_gYears (xs : List Pt) (yr : ℤ) :
    yr ∈ gYears xs ↔ ∃ p ∈ xs, p.year = yr ∧ validFin p.value = true := by
  unfold gYears
  rw [List.mem_insertionSort, List.mem_dedup, List.mem_map]
  constructor
  · rintro ⟨p, hp, rfl⟩
    have hv := List.of_mem_filter hp
    exact ⟨p, List.mem_of_mem_filter hp, rfl, hv⟩
  · rintro ⟨p, hps, hyr, hval⟩
    exact ⟨p, List.mem_filter.mpr ⟨hps, hval⟩, hyr⟩

theorem mem_gAligned_iff (xs ys : List Pt) (yr : ℤ) :
    (∃ z ∈ gAligned xs ys, z.1 = yr) ↔
      ((∃ p ∈ xs, p.year = yr ∧ validFin p.value = true) ∧
       (∃ q ∈ ys, q.year = yr ∧ validFin q.value = true)) := by
  constructor
  · rintro ⟨z, hz, rfl⟩
    unfold gAligned at hz
    rcases List.mem_filterMap.mp hz with ⟨yr', hyr', hf⟩
    cases hx : lastFin xs yr' with
    | none => rw [hx] at hf; cases hf
    | some x =>
        cases hy : lastFin ys yr' with
        | none => rw [hx, hy] at hf; cases hf
        | some y =>
            rw [hx, hy] at hf
            cases hf
            constructor
            · exact (mem_gYears xs yr').mp hyr'
            · exact (lastFin_isSome_iff ys yr').mp (by rw [hy]; rfl)
  · rintro ⟨hx, hy⟩
    have hyrs : yr ∈ gYears xs := (mem_gYears xs yr).mpr hx
    have hxs : (lastFin xs yr).isSome = true := (lastFin_isSome_iff xs yr).mpr hx
    have hys : (lastFin ys yr).isSome = true := (lastFin_isSome_iff ys yr).mpr hy
    rcases Option.isSome_iff_exists.mp hxs with ⟨x, hxv⟩
    rcases Option.isSome_iff_exists.mp hys with ⟨y, hyv⟩
    refine ⟨(yr, x, y), ?_, rfl⟩
    unfold gAligned
    refine List.mem_filterMap.mpr ⟨yr, hyrs, ?_⟩
    rw [hxv, hyv]

/-- A lag is skipped exactly when too few effective observations
remain, a regression is singular, or the unrestricted RSS is ≤ 0
(the degrees-of-freedom guard is subsumed by the observation
guard). -/
theorem lagCompute_eq_none_iff (al : List (ℤ × ℝ × ℝ)) (n lag : ℕ) :
    lagCompute al n lag = none ↔
      (n - lag < lag * 2 + 2 ∨ rssROf al n lag = none ∨ rssUOf al n lag = none ∨
        (∃ ru, rssUOf al n lag = some ru ∧ ru ≤ 0)) := by
  unfold lagCompute
  by_cases hg : n - lag < lag * 2 + 2
  · simp [hg]
  · rw [if_neg hg]
    cases hR : rssROf al n lag with
    | none => simp [hR]
    | some rR =>
        cases hU : rssUOf al n lag with
        | none => simp [hR, hU]
        | some rU =>
            by_cases hru : rU ≤ 0
            · simp [hg, hru]
            · have hdf : ¬ (dfDenOf n lag ≤ 0) := by
                unfold dfDenOf
                omega
              simp [hg, hru, hdf]

theorem lagCompute_eq_some_spec (al : List (ℤ × ℝ × ℝ)) (n lag : ℕ) (res : LagResult)
    (h : lagCompute al n lag = some res) :
    res.lag = lag ∧ res.observations = n - lag ∧
      ∃ rR rU, rssROf al n lag = some rR ∧ rssUOf al n lag = some rU ∧ 0 < rU ∧
        res.rssRestricted = rR ∧ res.rssUnrestricted = rU ∧
        res.fStatistic = roundTo 1000 (fStatOf rR rU n lag) ∧
        res.pValue = roundTo 10000 (pValOf rR rU n lag) ∧
        (res.significant = true ↔ pValOf rR rU n lag < 0.05) := by
  unfold lagCompute at h
  by_cases hg : n - lag < lag * 2 + 2
  · rw [if_pos hg] at h
    cases h
  · rw [if_neg hg] at h
    cases hR : rssROf al n lag with
    | none =>
        simp only [hR] at h
        exact Option.noConfusion h
    | some rR =>
        cases hU : rssUOf al n lag with
        | none =>
            simp only [hR, hU] at h
            exact Option.noConfusion h
        | some rU =>
            simp only [hR, hU] at h
            by_cases hru : rU ≤ 0
            · rw [if_pos hru] at h
              cases h
            · have hdf : ¬ (dfDenOf n lag ≤ 0) := by
                unfold dfDenOf
                omega
              rw [if_neg hru, if_neg hdf] at h
              rcases h with ⟨⟩
              refine ⟨rfl, rfl, rR, rU, rfl, rfl, by linarith, rfl, rfl, rfl, rfl, ?_⟩
              exact decide_eq_true_iff

/-- `reduce((a,b) => a.pValue < b.pValue ? a : b)` returns an
element of the list attaining the minimum stored p-value. -/
theorem foldl_best_spec (r : LagResult) (rest : List LagResult) :
    (rest.foldl (fun a b => if a.pValue < b.pValue then a else b) r) ∈ r :: rest
    ∧ ∀ c ∈ r :: rest,
        (rest.foldl (fun a b => if a.pValue < b.pValue then a else b) r).pValue ≤ c.pValue := by
  induction rest generalizing r with
  | nil =>
      refine ⟨by simp, ?_⟩
      intro c hc
      rcases List.mem_cons.mp hc with rfl | h
      · exact le_refl _
      · cases h
  | cons b t ih =>
      simp only [List.foldl_cons]
      by_cases h : r.pValue < b.pValue
      · rw [if_pos h]
        rcases ih r with ⟨hmem, hle⟩
        have hbr : (t.foldl (fun a b => if a.pValue < b.pValue then a else b) r).pValue
            ≤ r.pValue := hle r (List.mem_cons_self _ _)
        constructor
        · rcases List.mem_cons.mp hmem with h1 | h1
          · rw [h1]
            exact List.mem_cons_self _ _
          · exact List.mem_cons_of_mem _ (List.mem_cons_of_mem _ h1)
        · intro c hc
          rcases List.mem_cons.mp hc with rfl | hc'
          · exact hbr
          · rcases List.mem_cons.mp hc' with rfl | hc''
            · exact le_trans hbr (le_of_lt h)
            · exact hle c (List.mem_cons_of_mem _ hc'')
      · rw [if_neg h]
        rcases ih b with ⟨hmem, hle⟩
        have hbb : (t.foldl (fun a b => if a.pValue < b.pValue then a else b) b).pValue
            ≤ b.pValue := hle b (List.mem_cons_self _ _)
        constructor
        · rcases List.mem_cons.mp hmem with h1 | h1
          · rw [h1]
            exact List.mem_cons_of_mem _ (List.mem_cons_self _ _)
          · exact List.mem_cons_of_mem _ (List.mem_cons_of_mem _ h1)
        · intro c hc
          rcases List.mem_cons.mp hc with rfl | hc'
          · exact le_trans hbb (not_lt.mp h)
          · rcases List.mem_cons.mp hc' with rfl | hc''
            · exact hbb
            · exact hle c (List.mem_cons_of_mem _ hc'')

/-- C1: `grangerTest` returns null exactly when the year-aligned
count (years where both series have a present, finite value) is
below `3·maxLag + 2` or no lag could be computed; each lag
`L = 1..maxLag` is computed iff `n − L ≥ 2L + 2` and both
regressions solve with `RSS_u > 0` (a failing lag is skipped, not
fatal); each computed lag records the rounded F statistic and
p-value with `significant = (p < 0.05)`; and the reported best is a
computed lag attaining the minimum stored p-value, with
`causal` equal to that lag's significance flag. -/
theorem grangerTest_spec (xs ys : List Pt) (maxLag : ℕ) (_hml : 1 ≤ maxLag) :
    (grangerTest xs ys maxLag = none ↔
      ((gAligned xs ys).length < maxLag * 3 + 2 ∨
        (List.range' 1 maxLag).filterMap
          (lagCompute (gAligned xs ys) (gAligned xs ys).length) = []))
    ∧ (∀ yr : ℤ, (∃ z ∈ gAligned xs ys, z.1 = yr) ↔
        ((∃ p ∈ xs, p.year = yr ∧ validFin p.value = true) ∧
         (∃ q ∈ ys, q.year = yr ∧ validFin q.value = true)))
    ∧ (∀ lag : ℕ, lagCompute (gAligned xs ys) (gAligned xs ys).length lag = none ↔
        ((gAligned xs ys).length - lag < lag * 2 + 2 ∨
          rssROf (gAligned xs ys) (gAligned xs ys).length lag = none ∨
          rssUOf (gAligned xs ys) (gAligned xs ys).length lag = none ∨
          (∃ ru, rssUOf (gAligned xs ys) (gAligned xs ys).length lag = some ru ∧ ru ≤ 0)))
    ∧ (∀ lag res, lagCompute (gAligned xs ys) (gAligned xs ys).length lag = some res →
        res.lag = lag ∧ res.observations = (gAligned xs ys).length - lag ∧
          ∃ rR rU, rssROf (gAligned xs ys) (gAligned xs ys).length lag = some rR ∧
            rssUOf (gAligned xs ys) (gAligned xs ys).length lag = some rU ∧ 0 < rU ∧
            res.rssRestricted = rR ∧ res.rssUnrestricted = rU ∧
            res.fStatistic = roundTo 1000 (fStatOf rR rU (gAligned xs ys).length lag) ∧
            res.pValue = roundTo 10000 (pValOf rR rU (gAligned xs ys).length lag) ∧
            (res.significant = true ↔ pValOf rR rU (gAligned xs ys).length lag < 0.05))
    ∧ (∀ g, grangerTest xs ys maxLag = some g →
        g.results = (List.range' 1 maxLag).filterMap
          (lagCompute (gAligned xs ys) (gAligned xs ys).length) ∧
        g.results ≠ [] ∧
        ∃ b ∈ g.results, g.bestLag = b.lag ∧ g.bestF = b.fStatistic ∧ g.bestP = b.pValue ∧
          g.causal = b.significant ∧ ∀ c ∈ g.results, b.pValue ≤ c.pValue) := by
  refine ⟨?_, ?_, ?_, ?_, ?_⟩
  · unfold grangerTest
    by_cases hg : (gAligned xs ys).length < maxLag * 3 + 2
    · simp [hg]
    · rw [if_neg hg]
      cases hres : (List.range' 1 maxLag).filterMap
          (lagCompute (gAligned xs ys) (gAligned xs ys).length) with
      | nil => simp [hres, hg]
      | cons r rest => simp [hres, hg]
  · exact mem_gAligned_iff xs ys
  · intro lag
    exact lagCompute_eq_none_iff (gAligned xs ys) (gAligned xs ys).length lag
  · intro lag res h
    exact lagCompute_eq_some_spec (gAligned xs ys) (gAligned xs ys).length lag res h
  · intro g hg
    unfold grangerTest at hg
    by_cases hlen : (gAligned xs ys).length < maxLag * 3 + 2
    · rw [if_pos hlen] at hg
      cases hg
    · rw [if_neg hlen] at hg
      simp only [] at hg
      cases hres : (List.range' 1 maxLag).filterMap
          (lagCompute (gAligned xs ys) (gAligned xs ys).length) with
      | nil =>
          rw [hres] at hg
          exact Option.noConfusion hg
      | cons r rest =>
          rw [hres] at hg
          simp only [] at hg
          rcases hg with ⟨⟩
          rcases foldl_best_spec r rest with ⟨hmem, hle⟩
          exact ⟨rfl, by simp, _, hmem, rfl, rfl, rfl, rfl, hle⟩

/-- C1 witness: the null-condition clause applied at two empty
series with `maxLag = 1`. -/
theorem grangerTest_spec_witness :
    grangerTest [] [] 1 = none ↔
      ((gAligned [] []).length < 1 * 3 + 2 ∨
        (List.range' 1 1).filterMap (lagCompute (gAligned [] []) (gAligned [] []).length)
          = []) :=
  (grangerTest_spec [] [] 1 (by norm_num)).1
